import Mathlib

/-!
Verification development for the rendering backend in
`src/renderer/atlas/BackendD3D.cpp` (a D3D11 glyph-atlas text renderer).

The C++ code is shallowly embedded: machine integers are modelled as
`Nat`/`Int` with explicit `% 2^w` wherever the width of the C type matters
(`u32`, `u16`, `i32`), C integer division (truncation towards zero) is
`Int.tdiv`, and external collaborators (the DirectWrite rasterizer, the
stb_rect_pack packer, the GPU) are kept abstract as oracle parameters.
Where the file below deviates from a literal transcription (e.g. `f32`
arithmetic specialised to integer-valued inputs, for which it is exact),
the doc comment of the definition says so.

The copy of `BackendD3D.cpp` in this repository contains merge-conflict
markers; the embedding follows the "Updated upstream" variant, which is the
one consistent with the declarations used by the rest of the file
(in particular the one-argument `_resetGlyphAtlas(p)`).
-/

namespace BackendD3D

/-- Truncation to a `u32` value, the explicit model of C++ `uint32_t` wraparound. -/
def u32Mod (n : Nat) : Nat := n % 4294967296

/-- Truncation to a `u16` value, the explicit model of C++ `uint16_t` wraparound. -/
def u16Mod (n : Nat) : Nat := n % 65536

/-- Two's-complement wraparound of an `Int` into the `i32` range
`[-2^31, 2^31)`; this is the C++20 semantics of signed overflow on `<<`. -/
def i32Wrap (n : Int) : Int := (n + 2147483648) % 4294967296 - 2147483648

/-- Fuel-based base-2 logarithm; `log2fuel fuel n` equals `⌊log₂ n⌋` whenever
`1 ≤ n ≤ fuel`.  A fuel-based definition is used (rather than well-founded
recursion) so that the kernel can evaluate it on concrete inputs. -/
def log2fuel : Nat → Nat → Nat
  | 0, _ => 0
  | fuel + 1, n => if n < 2 then 0 else log2fuel fuel (n / 2) + 1

/-- Index of the highest set bit of `n` (for `n ≥ 1`): the model of the
`_BitScanReverse` intrinsic used by `_resetGlyphAtlas`. -/
def bitScanReverse (n : Nat) : Nat := log2fuel n n

/-! ## Atlas growth sizing (`BackendD3D::_resetGlyphAtlas`, lines 571-611)

The sizing block computes a texture area from the font cell size, the
target (swap-chain) surface size and the current packer size, clamps it,
and derives near-square power-of-two dimensions from the bit length. -/

/-- `minArea` from `_resetGlyphAtlas`: `1024 * 1024`. -/
def minArea : Nat := 1024 * 1024

/-- `maxArea` from `_resetGlyphAtlas`:
`D3D10_REQ_TEXTURE2D_U_OR_V_DIMENSION²` = `8192 * 8192`. -/
def maxArea : Nat := 8192 * 8192

/-- `clamp(v, lo, hi)` on unsigned values (`std::clamp` with `lo ≤ hi`). -/
def clampN (v lo hi : Nat) : Nat := min (max v lo) hi

/-- The `area` computed by `_resetGlyphAtlas`:
`clamp(min(maxAreaByFont, max(minAreaByFont, minAreaByGrowth)), minArea, maxArea)`
with `minAreaByFont = cellArea * 95`, `minAreaByGrowth = packerW * packerH * 2`
and `maxAreaByFont = targetArea + targetArea / 4`, all in `u32` arithmetic. -/
def resetAtlasArea (cellSizeX cellSizeY targetSizeX targetSizeY packW packH : Nat) : Nat :=
  let cellArea := u32Mod (cellSizeX * cellSizeY)
  let targetArea := u32Mod (targetSizeX * targetSizeY)
  let minAreaByFont := u32Mod (cellArea * 95)
  let minAreaByGrowth := u32Mod (packW * packH * 2)
  let maxAreaByFont := u32Mod (targetArea + targetArea / 4)
  clampN (min maxAreaByFont (max minAreaByFont minAreaByGrowth)) minArea maxArea

/-- The power-of-two texture dimensions derived from an area in
`_resetGlyphAtlas`: `_BitScanReverse(&index, area - 1)`,
`u = 1 << ((index + 2) / 2)`, `v = 1 << ((index + 1) / 2)`
(each cast to `u16`). -/
def areaToUV (area : Nat) : Nat × Nat :=
  let index := bitScanReverse (area - 1)
  (u16Mod (2 ^ ((index + 2) / 2)), u16Mod (2 ^ ((index + 1) / 2)))

/-- The full texture-size computation of `_resetGlyphAtlas`. -/
def resetAtlasUV (cellSizeX cellSizeY targetSizeX targetSizeY packW packH : Nat) : Nat × Nat :=
  areaToUV (resetAtlasArea cellSizeX cellSizeY targetSizeX targetSizeY packW packH)

/-! ## The glyph cache (`_glyphAtlasMap`, `_builtinGlyphs`)

`_glyphAtlasMap` maps a font face to an `AtlasFontFaceEntry` holding four
glyph hashmaps (one per line rendition); `_builtinGlyphs` is one further
`AtlasFontFaceEntry` (no font face) for builtin/soft-font glyphs.  Hashmaps
are modelled as total functions into `Option`. -/

/-- The four line renditions (`LineRendition` in the source). -/
inductive LineRendition where
  | singleWidth
  | doubleWidth
  | doubleHeightTop
  | doubleHeightBottom
deriving DecidableEq, Repr

/-- The shading types that glyph-drawing can produce
(`ShadingType` in the source; decoration-only values omitted). -/
inductive ShadingType where
  | defaultWhitespace
  | textGrayscale
  | textClearType
  | textPassthrough
  | textBuiltinGlyph
deriving DecidableEq, Repr

/-- A glyph cache entry (`AtlasGlyphEntry`): shading type, overlap-split flag,
glyph-local offset, size, and atlas texture coordinate.  Offsets and sizes are
`i32`/`u16` in the source; they are modelled as `Int` (the arithmetic on them
is `int` arithmetic), texture coordinates as `Nat` (`u16`). -/
structure AtlasGlyphEntry where
  shadingType : ShadingType
  overlapSplit : Bool
  offsetX : Int
  offsetY : Int
  sizeX : Int
  sizeY : Int
  texX : Nat
  texY : Nat
deriving DecidableEq, Repr

/-- The glyph cache: the per-font-face containers (`_glyphAtlasMap`, keyed by
the font-face identity, here a `Nat`) and the builtin container
(`_builtinGlyphs`), each holding one map per line rendition. -/
structure GlyphCache where
  faces : Nat → LineRendition → Nat → Option AtlasGlyphEntry
  builtin : LineRendition → Nat → Option AtlasGlyphEntry

/-- A glyph key: font-face identity (`none` = the builtin/soft-font container),
line rendition, glyph index. -/
structure GlyphKey where
  face : Option Nat
  rendition : LineRendition
  index : Nat
deriving DecidableEq, Repr

/-- Cache lookup (`fontFaceEntry->glyphs[lineRendition].lookup(glyphIndex)`,
with the builtin container chosen when no font face is supplied). -/
def GlyphCache.lookup (c : GlyphCache) (k : GlyphKey) : Option AtlasGlyphEntry :=
  match k.face with
  | some f => c.faces f k.rendition k.index
  | none => c.builtin k.rendition k.index

/-- Cache insertion (`glyphs[lineRendition].insert(glyphIndex)` followed by
writing the entry's fields). -/
def GlyphCache.insertEntry (c : GlyphCache) (k : GlyphKey) (e : AtlasGlyphEntry) : GlyphCache :=
  match k.face with
  | some f =>
    { c with faces := fun f' r' i' =>
        if f' = f ∧ r' = k.rendition ∧ i' = k.index then some e else c.faces f' r' i' }
  | none =>
    { c with builtin := fun r' i' =>
        if r' = k.rendition ∧ i' = k.index then some e else c.builtin r' i' }

/-- The cache clearing performed by `_resetGlyphAtlas` (lines 612-626): every
glyph map of every font-face slot and of the builtin container is cleared. -/
def GlyphCache.resetAll : GlyphCache :=
  { faces := fun _ _ _ => none, builtin := fun _ _ => none }

/-- The cache-affecting operations of the subsystem: inserting an entry for a
key (a cache-miss rasterization) and the atlas reset. -/
inductive CacheOp where
  | ins (k : GlyphKey) (e : AtlasGlyphEntry)
  | reset

/-- Application of one cache operation. -/
def applyCacheOp (c : GlyphCache) : CacheOp → GlyphCache
  | .ins k e => c.insertEntry k e
  | .reset => GlyphCache.resetAll

/-- Application of a sequence of cache operations, oldest first. -/
def applyCacheOps (c : GlyphCache) (ops : List CacheOp) : GlyphCache :=
  ops.foldl applyCacheOp c

/-! ## Atlas allocation with a single retry (`_drawGlyphAtlasAllocate`, lines 1338-1360)

The rectangle packer (stb_rect_pack) is an external library and is kept
abstract: `pack` attempts to place a `w x h` rectangle and returns the new
packer state and the position on success, and `reset` is the atlas
reset/grow cycle (`_resetGlyphAtlas`).  The control flow below is the literal
one of the source: one attempt, on failure one reset and exactly one retry,
and a thrown error (`THROW_HR(... ERROR_POSSIBLE_DEADLOCK)`) if the retry
also fails. -/

/-- `_drawGlyphAtlasAllocate`: pack, else reset and pack once more, else throw. -/
def drawGlyphAtlasAllocate {σ : Type} (pack : σ → Int × Int → Option (σ × Nat × Nat))
    (reset : σ → σ) (s : σ) (r : Int × Int) : Except σ (σ × Nat × Nat) :=
  match pack s r with
  | some out => .ok out
  | none =>
    match pack (reset s) r with
    | some out => .ok out
    | none => .error (reset s)

/-! ## Double-height glyph splitting (`_splitDoubleHeightGlyph`, lines 1373-1404) -/

/-- `clamp` on `Int` (`std::clamp` with `lo ≤ hi`). -/
def clampI (v lo hi : Int) : Int := min (max v lo) hi

/-- The font metrics consumed by the split (`p.s->font`). -/
structure FontMetrics where
  cellSizeY : Int
  baseline : Int
  descender : Int
deriving DecidableEq, Repr

/-- `_splitDoubleHeightGlyph` as a pure function producing the (top, bottom)
entry pair.  In the source, `isTop` only selects which of the two produced
entries stays under the current line-rendition key and which is inserted
under the opposite one (`drawGlyph` below models that placement); both halves
are computed from the same copied entry, so the pair itself does not depend
on it.  `texcoord.y` is a `u16`, hence the `u16Mod`. -/
def splitDoubleHeightGlyph (f : FontMetrics) (g0 : AtlasGlyphEntry) :
    AtlasGlyphEntry × AtlasGlyphEntry :=
  let g := { g0 with offsetY := g0.offsetY - f.descender }
  let topSize := clampI (-g.offsetY - f.baseline) 0 g.sizeY
  let bottomSize := max 0 (g.sizeY - topSize)
  let top := { g with
    offsetY := g.offsetY + f.cellSizeY,
    sizeY := topSize,
    shadingType := if topSize = 0 then .defaultWhitespace else g.shadingType }
  let bottom := { g with
    offsetY := g.offsetY + topSize,
    sizeY := bottomSize,
    texY := u16Mod (((g.texY : Int) + topSize).toNat),
    shadingType := if bottomSize = 0 then .defaultWhitespace else g.shadingType }
  (top, bottom)

/-! ## Ligature overlap-split thresholds
(`_updateFontDependents` lines 223-246, `_drawGlyph` lines 1188-1199)

`_ligatureOverhangTriggerLeft/Right` are `til::CoordType` = `int32_t` values.
At draw time they are shifted left by `scale` (0 for single-width rows, 1
otherwise); a left shift of an `i32` wraps modulo `2^32` (the C++20 semantics),
which matters when the stored thresholds are `INT32_MIN`/`INT32_MAX`. -/

/-- `til::CoordTypeMin` = `INT32_MIN`. -/
def coordTypeMin : Int := -2147483648

/-- `til::CoordTypeMax` = `INT32_MAX`. -/
def coordTypeMax : Int := 2147483647

/-- The thresholds computed by `_updateFontDependents`: with standard
ligatures disabled the sentinels `CoordTypeMin`/`CoordTypeMax`, otherwise
`-halfCellWidth` and `advanceWidth + halfCellWidth` with
`halfCellWidth = cellSize.x / 2` (C integer division). -/
def ligatureOverhangTriggers : Bool → Int → Int → Int × Int
  | true, _, _ => (coordTypeMin, coordTypeMax)
  | false, cellSizeX, advanceWidth =>
    (-(Int.tdiv cellSizeX 2), advanceWidth + Int.tdiv cellSizeX 2)

/-- The `overlapSplit` computation of `_drawGlyph`:
`rect.w >= cellSize.x && (bl <= (triggerLeft << scale) || br >= (triggerRight << scale))`,
with the shifts wrapping in `i32`. -/
def overlapSplitFlag (triggerLeft triggerRight : Int) (scale : Nat)
    (cellSizeX w bl br : Int) : Bool :=
  let tl := i32Wrap (triggerLeft * 2 ^ scale)
  let tr := i32Wrap (triggerRight * 2 ^ scale)
  decide (cellSizeX ≤ w) && (decide (bl ≤ tl) || decide (tr ≤ br))

/-! ## Atlas reset at the sizing level (`_resetGlyphAtlas`, lines 571-632)

`_resetGlyphAtlas` computes the new dimensions (`resetAtlasUV`), calls
`_resizeGlyphAtlas` exactly when they differ from the current packer
dimensions, reinitialises the packer to them (`stbrp_init_target`), and
clears every glyph container. -/

/-- The state touched by `_resetGlyphAtlas`: packer dimensions (equal to the
texture dimensions) and the glyph cache. -/
structure AtlasResetState where
  packW : Nat
  packH : Nat
  cache : GlyphCache

/-- One `_resetGlyphAtlas` execution; the returned `Bool` records whether
`_resizeGlyphAtlas` was invoked (computed dimensions differ from current). -/
def resetGlyphAtlasStep (cellSizeX cellSizeY targetSizeX targetSizeY : Nat)
    (s : AtlasResetState) : AtlasResetState × Bool :=
  let uv := resetAtlasUV cellSizeX cellSizeY targetSizeX targetSizeY s.packW s.packH
  (⟨uv.1, uv.2, GlyphCache.resetAll⟩, decide (uv ≠ (s.packW, s.packH)))

/-! ## The per-frame rendering model
(`BackendD3D::Render`, `_handleSettingsUpdate`, `_drawBackground`,
`_drawText`, `_drawGlyph`, `_drawBuiltinGlyph`)

External collaborators are abstract parameters: the stb_rect_pack packer is a
pair of functions `pack`/`resetPacker` over an abstract state `σ`, and the
DirectWrite rasterization of a glyph run is an oracle in the payload that
returns the glyph's rounded ink bounds (`none` for empty bounds).  The oracle
is keyed by the font face, the transform scale (wide/tall, how the source
configures the D2D transform) and the glyph index.  `f32` position arithmetic
is specialised to integer-valued inputs, on which it is exact and `lrintf` is
the identity. -/

/-- The grid's "no glyph" sentinel: `(u32)-1` written by `_drawBackground`. -/
def noGlyphSentinel : Nat := 4294967295

/-- One element of the fixed 120x30 cell grid (`Cell`): background color,
foreground color, and the glyph's atlas coordinates (`u32` each). -/
structure Cell where
  background : Nat
  foreground : Nat
  glyphX : Nat
  glyphY : Nat
deriving DecidableEq, Repr

/-- The font-derived settings consumed by the drawing paths (`p.s->font` plus
the ligature flag that `_updateFontDependents` derives from
`fontFeatures`). -/
structure FontSettings where
  cellSizeX : Int
  cellSizeY : Int
  baseline : Int
  descender : Int
  advanceWidth : Int
  ligaturesDisabled : Bool
  clearTypeAA : Bool
  softFontCellHeight : Nat
  softFontPatternLength : Nat
deriving DecidableEq, Repr

/-- Result of the external DirectWrite bounds query for one glyph run:
whether it is a color glyph, and the rounded ink bounds `lrintf(bounds.*)`.
The rasterizer returns `none` when the float bounds are empty
(`left >= right || top >= bottom`), the whitespace case. -/
structure InkBounds where
  isColor : Bool
  bl : Int
  bt : Int
  br : Int
  bb : Int
deriving DecidableEq, Repr

/-- Whether a line rendition doubles the horizontal scale
(`lineRendition != SingleWidth`). -/
def LineRendition.wide : LineRendition → Bool
  | .singleWidth => false
  | _ => true

/-- Whether a line rendition doubles the vertical scale
(`lineRendition >= DoubleHeightTop`). -/
def LineRendition.tall : LineRendition → Bool
  | .doubleHeightTop => true
  | .doubleHeightBottom => true
  | _ => false

/-- One glyph of a shaped row: glyph index, offsets and advance
(`row->glyphIndices[x]`, `row->glyphOffsets[x]`, `row->glyphAdvances[x]`).
For the builtin path the source folds a surrogate pair into one combined
code point consuming two slots; the model's list carries the already-combined
glyphs, each with the advance the source adds for it. -/
structure GlyphPlacement where
  glyphIndex : Nat
  advanceOffset : Int
  ascenderOffset : Int
  advance : Int
deriving DecidableEq, Repr

/-- One font-face mapping of a shaped row (`row->mappings`); `none` as the
font face selects the builtin/soft-font path. -/
structure RowMapping where
  fontFace : Option Nat
  glyphs : List GlyphPlacement
deriving Repr

/-- A shaped row (the glyph-drawing inputs of `ShapedRow`; decoration ranges
and inline bitmaps are separate draw primitives not covered here). -/
structure ShapedRow where
  lineRendition : LineRendition
  mappings : List RowMapping
deriving Repr

/-- The externally supplied per-frame payload (`RenderingPayload`): generation
stamps, viewport/target sizes, font settings, color bitmaps, shaped rows and
the rasterizer oracle. -/
structure RenderingPayload where
  generation : Nat
  fontGeneration : Nat
  miscGeneration : Nat
  viewportCellCountX : Nat
  viewportCellCountY : Nat
  targetSizeX : Nat
  targetSizeY : Nat
  font : FontSettings
  colorBitmapGeneration : Nat
  backgroundBitmap : Nat → Nat
  foregroundBitmap : Nat → Nat
  rows : List ShapedRow
  rasterize : Nat → Bool → Bool → Nat → Option InkBounds

/-- The atlas-level state threaded through text drawing: glyph cache plus the
abstract packer state. -/
structure AtlasState (σ : Type) where
  cache : GlyphCache
  packer : σ

/-- The effect of `_resetGlyphAtlas` on the threaded state during drawing:
clear every glyph container and reset the packer. -/
def atlasResetDuringDraw {σ : Type} (resetPacker : σ → σ) (st : AtlasState σ) : AtlasState σ :=
  ⟨GlyphCache.resetAll, resetPacker st.packer⟩

/-- Lifting of the packer to the threaded atlas state (a `stbrp_pack_rects`
call does not touch the glyph cache). -/
def packLift {σ : Type} (pack : σ → Int × Int → Option (σ × Nat × Nat)) :
    AtlasState σ → Int × Int → Option (AtlasState σ × Nat × Nat) :=
  fun st r =>
    match pack st.packer r with
    | some (q, x, y) => some (⟨st.cache, q⟩, x, y)
    | none => none

/-- `_textShadingType` as set by `_updateFontDependents`: ClearType or
grayscale text shading depending on the antialiasing mode. -/
def textShadingType (f : FontSettings) : ShadingType :=
  if f.clearTypeAA then .textClearType else .textGrayscale

/-- Modelled from the spec: `BuiltinGlyphs::IsSoftFontChar` is declared
outside `src/`.  The spec (§4.3) describes soft-font glyphs as "addressed by
a reserved code-point range", and `_drawSoftFontGlyph` maps glyph index
`0xEF20` to soft-font slot 0, so the range is modelled as starting at
`0xEF20` (96 slots). -/
def isSoftFontChar (glyphIndex : Nat) : Bool :=
  decide (0xEF20 ≤ glyphIndex) && decide (glyphIndex < 0xEF80)

/-- The shading type produced by `_drawSoftFontGlyph` (lines 1281-1336):
Default when the pattern slice for the glyph index is missing or short
(`data.empty() || data.size() != height` after `til::safe_slice_len`),
TextGrayscale otherwise. -/
def softFontShading (f : FontSettings) (glyphIndex : Nat) : ShadingType :=
  let height := f.softFontCellHeight
  let idx := glyphIndex - 0xEF20
  if 0 < height ∧ height * idx + height ≤ f.softFontPatternLength then .textGrayscale
  else .defaultWhitespace

/-- The opposite double-height rendition (`otherLineRendition` in
`_splitDoubleHeightGlyph`). -/
def LineRendition.otherHalf : LineRendition → LineRendition
  | .doubleHeightTop => .doubleHeightBottom
  | _ => .doubleHeightTop

/-- Shared tail of `_drawGlyph`/`_drawBuiltinGlyph`: store the freshly built
entry under its key and, for double-height renditions, split it into the two
halves stored under the two double-height keys (`_splitDoubleHeightGlyph`),
returning the half for the current rendition. -/
def storeGlyphEntry (font : FontSettings) (face : Option Nat) (rend : LineRendition)
    (glyphIndex : Nat) (c : GlyphCache) (e : AtlasGlyphEntry) :
    GlyphCache × AtlasGlyphEntry :=
  match rend with
  | .doubleHeightTop =>
    let halves := splitDoubleHeightGlyph ⟨font.cellSizeY, font.baseline, font.descender⟩ e
    ((c.insertEntry ⟨face, .doubleHeightTop, glyphIndex⟩ halves.1).insertEntry
      ⟨face, .doubleHeightBottom, glyphIndex⟩ halves.2, halves.1)
  | .doubleHeightBottom =>
    let halves := splitDoubleHeightGlyph ⟨font.cellSizeY, font.baseline, font.descender⟩ e
    ((c.insertEntry ⟨face, .doubleHeightBottom, glyphIndex⟩ halves.2).insertEntry
      ⟨face, .doubleHeightTop, glyphIndex⟩ halves.1, halves.2)
  | _ =>
    (c.insertEntry ⟨face, rend, glyphIndex⟩ e, e)

/-- `_drawGlyph` for a real font face (lines 960-1213): query the rasterizer
for the glyph's ink bounds; empty bounds yield a Default (whitespace) entry
with no atlas allocation; otherwise allocate an atlas rectangle (with the
single-retry reset of `_drawGlyphAtlasAllocate`), build the entry (shading
type, overlap-split flag, offset = rounded bounds origin, size, texture
coordinate) and store it, splitting double-height glyphs. -/
def drawGlyphWithFace {σ : Type} (pack : σ → Int × Int → Option (σ × Nat × Nat))
    (resetPacker : σ → σ) (p : RenderingPayload) (rend : LineRendition) (face : Nat)
    (glyphIndex : Nat) (st : AtlasState σ) :
    Except (AtlasState σ) (AtlasState σ × AtlasGlyphEntry) :=
  match p.rasterize face rend.wide rend.tall glyphIndex with
  | none =>
    let e : AtlasGlyphEntry := ⟨.defaultWhitespace, false, 0, 0, 0, 0, 0, 0⟩
    .ok (⟨st.cache.insertEntry ⟨some face, rend, glyphIndex⟩ e, st.packer⟩, e)
  | some ink =>
    let w := ink.br - ink.bl
    let h := ink.bb - ink.bt
    match drawGlyphAtlasAllocate (packLift pack) (atlasResetDuringDraw resetPacker)
        st (w, h) with
    | .error st1 => .error st1
    | .ok (st1, x, y) =>
      let scale : Nat := if rend.wide then 1 else 0
      let trig := ligatureOverhangTriggers p.font.ligaturesDisabled
        p.font.cellSizeX p.font.advanceWidth
      let ov := overlapSplitFlag trig.1 trig.2 scale p.font.cellSizeX w ink.bl ink.br
      let shading := if ink.isColor then ShadingType.textPassthrough else textShadingType p.font
      let e : AtlasGlyphEntry := ⟨shading, ov, ink.bl, ink.bt, w, h, x, y⟩
      let stored := storeGlyphEntry p.font (some face) rend glyphIndex st1.cache e
      .ok (⟨stored.1, st1.packer⟩, stored.2)

/-- `_drawBuiltinGlyph` (lines 1215-1279): allocate a cell-sized rectangle
(doubled per line rendition, with the baseline shifted for tall rows), shade
it as a builtin glyph or via the soft-font path, and store the entry with
`overlapSplit = 0`, splitting double-height glyphs. -/
def drawBuiltinGlyph {σ : Type} (pack : σ → Int × Int → Option (σ × Nat × Nat))
    (resetPacker : σ → σ) (p : RenderingPayload) (rend : LineRendition)
    (glyphIndex : Nat) (st : AtlasState σ) :
    Except (AtlasState σ) (AtlasState σ × AtlasGlyphEntry) :=
  let w := if rend.wide then p.font.cellSizeX * 2 else p.font.cellSizeX
  let h := if rend.tall then p.font.cellSizeY * 2 else p.font.cellSizeY
  let baseline := if rend.tall then p.font.baseline * 2 else p.font.baseline
  match drawGlyphAtlasAllocate (packLift pack) (atlasResetDuringDraw resetPacker)
      st (w, h) with
  | .error st1 => .error st1
  | .ok (st1, x, y) =>
    let shading := if isSoftFontChar glyphIndex then softFontShading p.font glyphIndex
      else ShadingType.textBuiltinGlyph
    let e : AtlasGlyphEntry := ⟨shading, false, 0, -baseline, w, h, x, y⟩
    let stored := storeGlyphEntry p.font none rend glyphIndex st1.cache e
    .ok (⟨stored.1, st1.packer⟩, stored.2)

/-- The cache-miss dispatch of `_drawGlyph`: the lack of a font face selects
the builtin/soft-font path. -/
def drawGlyph {σ : Type} (pack : σ → Int × Int → Option (σ × Nat × Nat))
    (resetPacker : σ → σ) (p : RenderingPayload) (rend : LineRendition)
    (face : Option Nat) (glyphIndex : Nat) (st : AtlasState σ) :
    Except (AtlasState σ) (AtlasState σ × AtlasGlyphEntry) :=
  match face with
  | none => drawBuiltinGlyph pack resetPacker p rend glyphIndex st
  | some f => drawGlyphWithFace pack resetPacker p rend f glyphIndex st

/-- One write into the cell grid performed by `_drawText`
(`_cells[cy][cx].glyphX/Y = glyphEntry->texcoord.x/y`). -/
structure Stamp where
  cy : Int
  cx : Int
  glyphX : Nat
  glyphY : Nat
deriving DecidableEq, Repr

/-- The cell-index computation of `_drawText` and `_drawBackground`:
`(pos + cellSize / 2) / cellSize` in C `int` arithmetic (truncating
division). -/
def cellIdx (pos cellSize : Int) : Int :=
  Int.tdiv (pos + Int.tdiv cellSize 2) cellSize

/-- The pixel position `(l, t)` at which `_drawText` places a glyph.  The
source computes `l = lrintf((baselineX + advanceOffset) * scaleX) + offset.x`
and `t = lrintf((baselineY - ascenderOffset) * scaleY) + offset.y` with
`baselineY = y * cellHeight + baseline` halved up front for tall rows; for
integer-valued inputs the `f32` arithmetic is exact, giving
`t = y * cellHeight + baseline - 2 * ascenderOffset + offset.y` in the tall
case (the halving and the `* 2` cancel). -/
def glyphStampPos (font : FontSettings) (rend : LineRendition) (y : Nat)
    (baselineX : Int) (g : GlyphPlacement) (e : AtlasGlyphEntry) : Int × Int :=
  let sx : Int := if rend.wide then 2 else 1
  let l := (baselineX + g.advanceOffset) * sx + e.offsetX
  let baselineY := (y : Int) * font.cellSizeY + font.baseline
  let t := (if rend.tall then baselineY - 2 * g.ascenderOffset
    else baselineY - g.ascenderOffset) + e.offsetY
  (l, t)

/-- The cell-grid writes performed for one glyph: a glyph whose shading type
is Default is not stamped; otherwise its atlas coordinates are written to
the cell nearest its pixel position.  (`_drawTextOverlapSplit`, invoked for
`overlapSplit` entries, has an empty body in this source and contributes
nothing.) -/
def glyphStamps (font : FontSettings) (rend : LineRendition) (y : Nat)
    (baselineX : Int) (g : GlyphPlacement) (e : AtlasGlyphEntry) : List Stamp :=
  if e.shadingType = .defaultWhitespace then []
  else
    let pos := glyphStampPos font rend y baselineX g e
    [⟨cellIdx pos.2 font.cellSizeY, cellIdx pos.1 font.cellSizeX, e.texX, e.texY⟩]

/-- Processing of one glyph of a row by `_drawText`: look the key up, on a
miss invoke `_drawGlyph`, stamp non-whitespace entries, and advance the
baseline. -/
def processGlyph {σ : Type} (pack : σ → Int × Int → Option (σ × Nat × Nat))
    (resetPacker : σ → σ) (p : RenderingPayload) (rend : LineRendition)
    (face : Option Nat) (y : Nat) (st : AtlasState σ) (baselineX : Int)
    (g : GlyphPlacement) : Except (AtlasState σ) (AtlasState σ × Int × List Stamp) :=
  match st.cache.lookup ⟨face, rend, g.glyphIndex⟩ with
  | some e =>
    .ok (st, baselineX + g.advance, glyphStamps p.font rend y baselineX g e)
  | none =>
    match drawGlyph pack resetPacker p rend face g.glyphIndex st with
    | .error st1 => .error st1
    | .ok (st1, e) =>
      .ok (st1, baselineX + g.advance, glyphStamps p.font rend y baselineX g e)

/-- Processing of a glyph list (the `while (x < glyphsTo)` loop). -/
def processGlyphs {σ : Type} (pack : σ → Int × Int → Option (σ × Nat × Nat))
    (resetPacker : σ → σ) (p : RenderingPayload) (rend : LineRendition)
    (face : Option Nat) (y : Nat) :
    List GlyphPlacement → AtlasState σ → Int →
    Except (AtlasState σ) (AtlasState σ × Int × List Stamp)
  | [], st, baselineX => .ok (st, baselineX, [])
  | g :: rest, st, baselineX =>
    match processGlyph pack resetPacker p rend face y st baselineX g with
    | .error st1 => .error st1
    | .ok (st1, bx1, out) =>
      match processGlyphs pack resetPacker p rend face y rest st1 bx1 with
      | .error st2 => .error st2
      | .ok (st2, bx2, out2) => .ok (st2, bx2, out ++ out2)

/-- Processing of a row's mappings (the `for (const auto& m : row->mappings)`
loop); the baseline advances across mappings within the row. -/
def processMappings {σ : Type} (pack : σ → Int × Int → Option (σ × Nat × Nat))
    (resetPacker : σ → σ) (p : RenderingPayload) (rend : LineRendition) (y : Nat) :
    List RowMapping → AtlasState σ → Int →
    Except (AtlasState σ) (AtlasState σ × Int × List Stamp)
  | [], st, baselineX => .ok (st, baselineX, [])
  | m :: rest, st, baselineX =>
    match processGlyphs pack resetPacker p rend m.fontFace y m.glyphs st baselineX with
    | .error st1 => .error st1
    | .ok (st1, bx1, out) =>
      match processMappings pack resetPacker p rend y rest st1 bx1 with
      | .error st2 => .error st2
      | .ok (st2, bx2, out2) => .ok (st2, bx2, out ++ out2)

/-- Processing of the row list of `_drawText` (`u16 y = 0; ... ++y`), with
`baselineX = 0` at the start of every row.  Decoration quads
(`_drawGridlines`) and dirty-rect tracking do not touch the cell grid and are
not modelled. -/
def processRows {σ : Type} (pack : σ → Int × Int → Option (σ × Nat × Nat))
    (resetPacker : σ → σ) (p : RenderingPayload) :
    List ShapedRow → Nat → AtlasState σ →
    Except (AtlasState σ) (AtlasState σ × List Stamp)
  | [], _, st => .ok (st, [])
  | row :: rest, y, st =>
    match processMappings pack resetPacker p row.lineRendition y row.mappings st 0 with
    | .error st1 => .error st1
    | .ok (st1, _, out) =>
      match processRows pack resetPacker p rest (y + 1) st1 with
      | .error st2 => .error st2
      | .ok (st2, out2) => .ok (st2, out ++ out2)

/-- `_drawText` (lines 826-943): reset the atlas first when the
font-changed flag is set, then process all rows.  The flag is false after
every `_drawText` (it is cleared by `_resetGlyphAtlas` when set, and never
set during drawing). -/
def drawText {σ : Type} (pack : σ → Int × Int → Option (σ × Nat × Nat))
    (resetPacker : σ → σ) (p : RenderingPayload) (flag : Bool) (st : AtlasState σ) :
    Except (AtlasState σ) (AtlasState σ × List Stamp) :=
  let st0 := if flag then atlasResetDuringDraw resetPacker st else st
  processRows pack resetPacker p p.rows 0 st0

/-- Which of the generation-guarded recreation paths ran during a frame
(`_handleSettingsUpdate` and its three conditional calls). -/
structure RecreateEvents where
  handledSettings : Bool
  fontDependents : Bool
  customShader : Bool
  backgroundBitmap : Bool
deriving DecidableEq, Repr

/-- The locally cached backend state relevant to the modelled frame logic:
the generation stamps (`_generation`, `_fontGeneration`, `_miscGeneration`,
`_viewportCellCount`, `_targetSize`), the deferred atlas-reset flag, the
background-bitmap generation, and the atlas (cache + packer), plus the cell
writes of the last frame (the grid itself is the derived `finalCells`). -/
structure RenderState (σ : Type) where
  generation : Nat
  fontGeneration : Nat
  miscGeneration : Nat
  viewportCellCountX : Nat
  viewportCellCountY : Nat
  targetSizeX : Nat
  targetSizeY : Nat
  fontChangedResetGlyphAtlas : Bool
  backgroundBitmapGeneration : Nat
  atlas : AtlasState σ
  stamps : List Stamp

/-- `_handleSettingsUpdate` (lines 148-189): compare the font/misc/cell-count
sub-generations, run the matching recreation paths (`_updateFontDependents`
sets the deferred atlas-reset flag), and adopt all external stamps. -/
def handleSettingsUpdate {σ : Type} (s : RenderState σ) (p : RenderingPayload) :
    RenderState σ × RecreateEvents :=
  let fontChanged := decide (s.fontGeneration ≠ p.fontGeneration)
  let miscChanged := decide (s.miscGeneration ≠ p.miscGeneration)
  let cellCountChanged := decide ((s.viewportCellCountX, s.viewportCellCountY) ≠
    (p.viewportCellCountX, p.viewportCellCountY))
  ({ s with
      generation := p.generation
      fontGeneration := p.fontGeneration
      miscGeneration := p.miscGeneration
      viewportCellCountX := p.viewportCellCountX
      viewportCellCountY := p.viewportCellCountY
      targetSizeX := p.targetSizeX
      targetSizeY := p.targetSizeY
      fontChangedResetGlyphAtlas := s.fontChangedResetGlyphAtlas || fontChanged },
    ⟨true, fontChanged, miscChanged, cellCountChanged⟩)

/-- `BackendD3D::Render` (lines 111-141): run `_handleSettingsUpdate` exactly
when the overall generation stamp differs, draw the background (which adopts
the color-bitmap generation and re-initialises every cell, see
`drawBackgroundGrid`), then draw the text.  The cursor/selection passes have
empty bodies in this source.  On success the new state and the recreation
events are returned; the error case is the `THROW_HR` of a doubly failed
atlas allocation. -/
def render {σ : Type} (pack : σ → Int × Int → Option (σ × Nat × Nat))
    (resetPacker : σ → σ) (s : RenderState σ) (p : RenderingPayload) :
    Except (AtlasState σ) (RenderState σ × RecreateEvents) :=
  let handled := if s.generation ≠ p.generation then handleSettingsUpdate s p
    else (s, ⟨false, false, false, false⟩)
  let s1 := handled.1
  let s2 := { s1 with backgroundBitmapGeneration := p.colorBitmapGeneration }
  match drawText pack resetPacker p s2.fontChangedResetGlyphAtlas s2.atlas with
  | .error st => .error st
  | .ok (st, stamps) =>
    .ok ({ s2 with atlas := st, fontChangedResetGlyphAtlas := false, stamps := stamps },
      handled.2)

/-- `_drawBackground` (lines 801-819): every cell of the fixed 120x30 grid is
rewritten with the payload's colors (indexed `y * 120 + x`) and the glyph
coordinates are re-initialised to the sentinel.  The grid is modelled as a
total function on `Int` pairs; the C array only exists for
`0 ≤ y < 30, 0 ≤ x < 120` (the out-of-bounds behaviour of the unchecked
stamp writes is treated separately). -/
def drawBackgroundGrid (p : RenderingPayload) : Int → Int → Cell :=
  fun y x =>
    ⟨p.backgroundBitmap (y * 120 + x).toNat, p.foregroundBitmap (y * 120 + x).toNat,
      noGlyphSentinel, noGlyphSentinel⟩

/-- One stamp applied to the grid
(`_cells[cy][cx].glyphX = ...; _cells[cy][cx].glyphY = ...`). -/
def applyStamp (grid : Int → Int → Cell) (s : Stamp) : Int → Int → Cell :=
  fun y x =>
    if y = s.cy ∧ x = s.cx then
      { grid y x with glyphX := s.glyphX, glyphY := s.glyphY }
    else grid y x

/-- All stamps of a frame applied in order. -/
def applyStamps (grid : Int → Int → Cell) (l : List Stamp) : Int → Int → Cell :=
  l.foldl applyStamp grid

/-- The cell grid at the end of a frame: the background-initialised grid with
the frame's glyph stamps applied. -/
def finalCells (p : RenderingPayload) (stamps : List Stamp) : Int → Int → Cell :=
  applyStamps (drawBackgroundGrid p) stamps

/-- The bounds check that the unchecked writes `_cells[cy][cx]` of
`_drawText` would need: the fixed cell array is `Cell _cells[30][120]`. -/
def stampInBounds (s : Stamp) : Prop :=
  0 ≤ s.cy ∧ s.cy < 30 ∧ 0 ≤ s.cx ∧ s.cx < 120

instance (s : Stamp) : Decidable (stampInBounds s) := by
  unfold stampInBounds
  infer_instance

/-- Projection: the stamps recorded by a successfully rendered frame. -/
def renderStamps {σ : Type} (r : Except (AtlasState σ) (RenderState σ × RecreateEvents)) :
    List Stamp :=
  match r with
  | .ok (s, _) => s.stamps
  | .error _ => []

/-- Projection: a cache lookup in the state of a successfully rendered frame. -/
def renderLookup {σ : Type} (r : Except (AtlasState σ) (RenderState σ × RecreateEvents))
    (k : GlyphKey) : Option AtlasGlyphEntry :=
  match r with
  | .ok (s, _) => s.atlas.cache.lookup k
  | .error _ => none

/-- Projection: the entry produced by one glyph-drawing call. -/
def entryOf {σ : Type} (r : Except (AtlasState σ) (AtlasState σ × AtlasGlyphEntry)) :
    Option AtlasGlyphEntry :=
  match r with
  | .ok (_, e) => some e
  | .error _ => none

/-- Concrete payload for the builtin-glyph witness: a 10x20 cell font. -/
def c10payload : RenderingPayload :=
  { generation := 0, fontGeneration := 0, miscGeneration := 0
    viewportCellCountX := 120, viewportCellCountY := 30
    targetSizeX := 1200, targetSizeY := 600
    font := ⟨10, 20, 15, 3, 10, false, false, 0, 0⟩
    colorBitmapGeneration := 0
    backgroundBitmap := fun _ => 0, foregroundBitmap := fun _ => 0
    rows := [], rasterize := fun _ _ _ _ => none }

/-- Font settings for the out-of-bounds stamp: 10x20 cells. -/
def c9font : FontSettings := ⟨10, 20, 15, 3, 10, false, false, 0, 0⟩

/-- Font settings of the end-to-end scenario: 10x20 cells, baseline 15. -/
def c7font : FontSettings := ⟨10, 20, 15, 3, 10, false, false, 0, 0⟩

/-- Payload of the end-to-end scenario: a 120x30 cell viewport, a single font
generation, one shaped row whose single ASCII glyph (index 65) is advanced to
pixel 50 — which, with the glyph's ink bounds, lands in column 5. -/
def c7payload : RenderingPayload :=
  { generation := 1, fontGeneration := 1, miscGeneration := 1
    viewportCellCountX := 120, viewportCellCountY := 30
    targetSizeX := 1200, targetSizeY := 600
    font := c7font
    colorBitmapGeneration := 1
    backgroundBitmap := fun n => 100 + n, foregroundBitmap := fun n => 200 + n
    rows := [⟨.singleWidth, [⟨some 7, [⟨65, 50, 0, 10⟩]⟩]⟩]
    rasterize := fun f w t gi =>
      if f = 7 ∧ w = false ∧ t = false ∧ gi = 65 then some ⟨false, 1, -10, 7, 2⟩ else none }

/-- A packer that always succeeds, placing at (8, 9); state counts
allocations. -/
def c7pack : Nat → Int × Int → Option (Nat × Nat × Nat) := fun s _ => some (s + 1, 8, 9)

/-- The pre-frame backend state of the scenario (stale generation 0, so the
first frame runs the settings update). -/
def c7state : RenderState Nat :=
  { generation := 0, fontGeneration := 0, miscGeneration := 0
    viewportCellCountX := 120, viewportCellCountY := 30
    targetSizeX := 1200, targetSizeY := 600
    fontChangedResetGlyphAtlas := false, backgroundBitmapGeneration := 0
    atlas := ⟨GlyphCache.resetAll, 0⟩, stamps := [] }

/-- Two consecutive frames with the same payload
(`Render` called twice, the second from the first one's resulting state). -/
def renderTwice {σ : Type} (pack : σ → Int × Int → Option (σ × Nat × Nat))
    (resetPacker : σ → σ) (s : RenderState σ) (p : RenderingPayload) :
    Except (AtlasState σ) (RenderState σ × RecreateEvents) :=
  match render pack resetPacker s p with
  | .error e => .error e
  | .ok (s1, _) => render pack resetPacker s1 p

/-- A bump packer with state (capacity, cursor): fails when the row is full. -/
def c6pack : Nat × Nat → Int × Int → Option ((Nat × Nat) × Nat × Nat) :=
  fun s r => if s.2 + r.1.toNat ≤ s.1 then some ((s.1, s.2 + r.1.toNat), s.2, 0) else none

/-- The packer reset that accompanies an atlas reset/grow: double the
capacity, clear the cursor. -/
def c6resetPacker : Nat × Nat → Nat × Nat := fun s => (s.1 * 2, 0)

/-- Payload with one row of two 10-pixel-wide glyphs (indices 65 and 66),
sized so that the second allocation overflows a capacity-16 atlas. -/
def c6payload : RenderingPayload :=
  { generation := 0, fontGeneration := 0, miscGeneration := 0
    viewportCellCountX := 120, viewportCellCountY := 30
    targetSizeX := 1200, targetSizeY := 600
    font := c7font
    colorBitmapGeneration := 0
    backgroundBitmap := fun _ => 0, foregroundBitmap := fun _ => 0
    rows := [⟨.singleWidth, [⟨some 0, [⟨65, 0, 0, 20⟩, ⟨66, 0, 0, 20⟩]⟩]⟩]
    rasterize := fun _ w t gi =>
      if (gi = 65 ∨ gi = 66) ∧ w = false ∧ t = false then some ⟨false, 0, -10, 10, 0⟩
      else none }

/-- Matching-generation pre-frame state with a capacity-16 atlas, so neither
frame performs any settings-driven resource recreation. -/
def c6state : RenderState (Nat × Nat) :=
  { generation := 0, fontGeneration := 0, miscGeneration := 0
    viewportCellCountX := 120, viewportCellCountY := 30
    targetSizeX := 1200, targetSizeY := 600
    fontChangedResetGlyphAtlas := false, backgroundBitmapGeneration := 0
    atlas := ⟨GlyphCache.resetAll, (16, 0)⟩, stamps := [] }

/-- Binding preservation between caches: every entry stored in `c` is stored
unchanged in `c'` (the caches only grow during a frame with no atlas
overflow). -/
def CacheExt (c c' : GlyphCache) : Prop :=
  ∀ k e, c.lookup k = some e → c'.lookup k = some e

/-- The pairing invariant of the glyph cache: the two double-height halves of
a glyph are either both cached or both absent — for font-face keys whenever
the rasterizer reports non-empty bounds (the split always inserts both
halves; empty bounds insert a single Default entry but then the antecedent
fails), and unconditionally for builtin keys (the builtin path always
splits).  It holds for the empty cache, is preserved by every drawing step,
and rules out the only way an insert could overwrite an existing entry (the
other-half insert of `_splitDoubleHeightGlyph`). -/
def CachePaired (p : RenderingPayload) (c : GlyphCache) : Prop :=
  (∀ face gi, p.rasterize face true true gi ≠ none →
    ((c.lookup ⟨some face, .doubleHeightTop, gi⟩).isSome ↔
      (c.lookup ⟨some face, .doubleHeightBottom, gi⟩).isSome)) ∧
  (∀ gi, ((c.lookup ⟨none, .doubleHeightTop, gi⟩).isSome ↔
    (c.lookup ⟨none, .doubleHeightBottom, gi⟩).isSome))

theorem log2fuel_spec : ∀ fuel n, 1 ≤ n → n ≤ fuel →
    2 ^ log2fuel fuel n ≤ n ∧ n < 2 ^ (log2fuel fuel n + 1) := by
  intro fuel
  induction fuel with
  | zero => intro n h1 h2; omega
  | succ fuel ih =>
    intro n h1 h2
    by_cases hn : n < 2
    · simp only [log2fuel, if_pos hn]
      constructor
      · simpa using h1
      · omega
    · simp only [log2fuel, if_neg hn]
      have h2' : 2 ≤ n := by omega
      have hhalf1 : 1 ≤ n / 2 := Nat.one_le_div_iff (by norm_num) |>.mpr h2'
      have hhalf2 : n / 2 ≤ fuel := by omega
      obtain ⟨hlo, hhi⟩ := ih (n / 2) hhalf1 hhalf2
      constructor
      · calc 2 ^ (log2fuel fuel (n / 2) + 1)
            = 2 * 2 ^ log2fuel fuel (n / 2) := by ring
          _ ≤ 2 * (n / 2) := by omega
          _ ≤ n := Nat.mul_div_le n 2 |>.trans_eq (by ring_nf)
      · have : n / 2 + 1 ≤ 2 ^ (log2fuel fuel (n / 2) + 1) := hhi
        have hn2 : n < 2 * (n / 2) + 2 := by omega
        calc n < 2 * (n / 2) + 2 := hn2
          _ = 2 * (n / 2 + 1) := by ring
          _ ≤ 2 * 2 ^ (log2fuel fuel (n / 2) + 1) := by omega
          _ = 2 ^ (log2fuel fuel (n / 2) + 1 + 1) := by ring

theorem bitScanReverse_spec (n : Nat) (h : 1 ≤ n) :
    2 ^ bitScanReverse n ≤ n ∧ n < 2 ^ (bitScanReverse n + 1) :=
  log2fuel_spec n n h le_rfl

theorem clampN_mem (v lo hi : Nat) (h : lo ≤ hi) :
    lo ≤ clampN v lo hi ∧ clampN v lo hi ≤ hi := by
  unfold clampN
  simp only [Nat.min_def, Nat.max_def]
  split_ifs <;> omega

theorem resetAtlasArea_mem (cellSizeX cellSizeY targetSizeX targetSizeY packW packH : Nat) :
    minArea ≤ resetAtlasArea cellSizeX cellSizeY targetSizeX targetSizeY packW packH ∧
    resetAtlasArea cellSizeX cellSizeY targetSizeX targetSizeY packW packH ≤ maxArea :=
  clampN_mem _ _ _ (by norm_num [minArea, maxArea])

theorem areaToUV_spec (area : Nat) (hlo : minArea ≤ area) (hhi : area ≤ maxArea) :
    (∃ i, (areaToUV area).1 = 2 ^ i) ∧ (∃ j, (areaToUV area).2 = 2 ^ j) ∧
    area ≤ (areaToUV area).1 * (areaToUV area).2 := by
  have harea1 : 1 ≤ area - 1 := by
    have : (1048576 : Nat) ≤ area := hlo
    omega
  obtain ⟨hbslo, hbshi⟩ := bitScanReverse_spec (area - 1) harea1
  set index := bitScanReverse (area - 1) with hidx
  have hindexhi : index ≤ 25 := by
    by_contra h
    have h26 : 26 ≤ index := by omega
    have : (2 : Nat) ^ 26 ≤ 2 ^ index := Nat.pow_le_pow_right (by norm_num) h26
    have : (2 : Nat) ^ 26 ≤ area - 1 := le_trans this hbslo
    have : area ≤ 8192 * 8192 := hhi
    norm_num at *
    omega
  have hu16a : (2 : Nat) ^ ((index + 2) / 2) < 65536 := by
    have h13 : (index + 2) / 2 ≤ 13 := by omega
    calc (2 : Nat) ^ ((index + 2) / 2) ≤ 2 ^ 13 := Nat.pow_le_pow_right (by norm_num) h13
      _ < 65536 := by norm_num
  have hu16b : (2 : Nat) ^ ((index + 1) / 2) < 65536 := by
    have h13 : (index + 1) / 2 ≤ 13 := by omega
    calc (2 : Nat) ^ ((index + 1) / 2) ≤ 2 ^ 13 := Nat.pow_le_pow_right (by norm_num) h13
      _ < 65536 := by norm_num
  have hu : (areaToUV area).1 = 2 ^ ((index + 2) / 2) := by
    simp only [areaToUV, ← hidx, u16Mod]
    exact Nat.mod_eq_of_lt hu16a
  have hv : (areaToUV area).2 = 2 ^ ((index + 1) / 2) := by
    simp only [areaToUV, ← hidx, u16Mod]
    exact Nat.mod_eq_of_lt hu16b
  refine ⟨⟨_, hu⟩, ⟨_, hv⟩, ?_⟩
  rw [hu, hv, ← pow_add]
  have hsum : (index + 2) / 2 + (index + 1) / 2 = index + 1 := by omega
  rw [hsum]
  omega

/-- C2: on every atlas reset the computed texture dimensions are powers of two
whose product covers the clamped target area
`clamp(min(1.25 * targetArea, max(95 * cellArea, 2 * packerArea)), minArea, maxArea)`;
and for any area `A` in `[minArea, maxArea]` the dimensions computed from `A`
are powers of two with product at least `A`. -/
theorem c2_atlas_sizing_pow2_covers :
    (∀ area : Nat, minArea ≤ area → area ≤ maxArea →
      (∃ i, (areaToUV area).1 = 2 ^ i) ∧ (∃ j, (areaToUV area).2 = 2 ^ j) ∧
      area ≤ (areaToUV area).1 * (areaToUV area).2) ∧
    (∀ cellSizeX cellSizeY targetSizeX targetSizeY packW packH : Nat,
      (∃ i, (resetAtlasUV cellSizeX cellSizeY targetSizeX targetSizeY packW packH).1 = 2 ^ i) ∧
      (∃ j, (resetAtlasUV cellSizeX cellSizeY targetSizeX targetSizeY packW packH).2 = 2 ^ j) ∧
      resetAtlasArea cellSizeX cellSizeY targetSizeX targetSizeY packW packH ≤
        (resetAtlasUV cellSizeX cellSizeY targetSizeX targetSizeY packW packH).1 *
        (resetAtlasUV cellSizeX cellSizeY targetSizeX targetSizeY packW packH).2) := by
  constructor
  · intro area hlo hhi
    exact areaToUV_spec area hlo hhi
  · intro cellSizeX cellSizeY targetSizeX targetSizeY packW packH
    obtain ⟨hlo, hhi⟩ := resetAtlasArea_mem cellSizeX cellSizeY targetSizeX targetSizeY packW packH
    exact areaToUV_spec _ hlo hhi

/-- Witness for `c2_atlas_sizing_pow2_covers` at the concrete area
`985 * 1946 = 1916810` (the example from the source comment, which says the
result should be `2048 x 1024`). -/
theorem c2_atlas_sizing_pow2_covers_witness :
    minArea ≤ 1916810 ∧ 1916810 ≤ maxArea ∧
    areaToUV 1916810 = (2048, 1024) ∧
    1916810 ≤ (areaToUV 1916810).1 * (areaToUV 1916810).2 :=
  ⟨by norm_num [minArea], by norm_num [maxArea], by decide,
    (c2_atlas_sizing_pow2_covers.1 1916810 (by norm_num [minArea])
      (by norm_num [maxArea])).2.2⟩

theorem GlyphCache.lookup_insertEntry_self (c : GlyphCache) (k : GlyphKey) (e : AtlasGlyphEntry) :
    (c.insertEntry k e).lookup k = some e := by
  cases k with
  | mk face rendition index =>
    cases face <;> simp [GlyphCache.lookup, GlyphCache.insertEntry]

theorem GlyphCache.lookup_insertEntry_other (c : GlyphCache) (k k' : GlyphKey)
    (e : AtlasGlyphEntry) (h : k' ≠ k) :
    (c.insertEntry k e).lookup k' = c.lookup k' := by
  cases k with
  | mk face rendition index =>
    cases k' with
    | mk face' rendition' index' =>
      cases face <;> cases face' <;>
        simp_all [GlyphCache.lookup, GlyphCache.insertEntry, GlyphKey.mk.injEq]

theorem GlyphCache.lookup_resetAll (k : GlyphKey) :
    GlyphCache.resetAll.lookup k = none := by
  cases k with
  | mk face rendition index => cases face <;> simp [GlyphCache.lookup, GlyphCache.resetAll]

theorem applyCacheOps_lookup_untouched (ops : List CacheOp) (c : GlyphCache) (k : GlyphKey)
    (hops : ∀ op ∈ ops, op ≠ CacheOp.reset ∧ ∀ e', op ≠ CacheOp.ins k e') :
    (applyCacheOps c ops).lookup k = c.lookup k := by
  induction ops generalizing c with
  | nil => rfl
  | cons op rest ih =>
    have hop := hops op (by simp)
    have hrest : ∀ op' ∈ rest, op' ≠ CacheOp.reset ∧ ∀ e', op' ≠ CacheOp.ins k e' :=
      fun op' h' => hops op' (by simp [h'])
    match op with
    | .reset => exact absurd rfl hop.1
    | .ins k' e' =>
      have hkk : k ≠ k' := by
        intro hk
        exact hop.2 e' (by rw [hk])
      have hstep : applyCacheOps c (CacheOp.ins k' e' :: rest) =
          applyCacheOps (c.insertEntry k' e') rest := rfl
      rw [hstep, ih (c.insertEntry k' e') hrest,
        GlyphCache.lookup_insertEntry_other c k' k e' hkk]

/-- C1: a lookup after an insert of the same key returns the stored entry
verbatim, and this persists across any further operations that are neither a
reset nor an insert of the same key; after a reset, every key (including every
builtin key) misses. -/
theorem c1_lookup_after_insert_until_reset :
    (∀ (c : GlyphCache) (k : GlyphKey) (e : AtlasGlyphEntry) (ops : List CacheOp),
      (∀ op ∈ ops, op ≠ CacheOp.reset ∧ ∀ e', op ≠ CacheOp.ins k e') →
      (applyCacheOps (c.insertEntry k e) ops).lookup k = some e) ∧
    (∀ (c : GlyphCache) (ops : List CacheOp) (k : GlyphKey),
      (applyCacheOps c (ops ++ [CacheOp.reset])).lookup k = none) := by
  constructor
  · intro c k e ops hops
    rw [applyCacheOps_lookup_untouched ops (c.insertEntry k e) k hops]
    exact c.lookup_insertEntry_self k e
  · intro c ops k
    have : applyCacheOps c (ops ++ [CacheOp.reset]) =
        applyCacheOp (applyCacheOps c ops) CacheOp.reset := by
      simp [applyCacheOps, List.foldl_append]
    rw [this]
    exact GlyphCache.lookup_resetAll k

/-- Witness for `c1_lookup_after_insert_until_reset`: a builtin-container key
is inserted, an unrelated font-face key is inserted afterwards, the first key
still returns its entry verbatim; after a reset the builtin key misses. -/
theorem c1_lookup_after_insert_until_reset_witness :
    (∀ op ∈ [CacheOp.ins ⟨some 3, .doubleWidth, 7⟩
        ⟨.textGrayscale, true, 1, 2, 3, 4, 5, 6⟩],
      op ≠ CacheOp.reset ∧
      ∀ e', op ≠ CacheOp.ins ⟨none, .singleWidth, 65⟩ e') ∧
    (applyCacheOps (GlyphCache.resetAll.insertEntry ⟨none, .singleWidth, 65⟩
        ⟨.textBuiltinGlyph, false, 0, -9, 8, 16, 32, 48⟩)
      [CacheOp.ins ⟨some 3, .doubleWidth, 7⟩
        ⟨.textGrayscale, true, 1, 2, 3, 4, 5, 6⟩]).lookup ⟨none, .singleWidth, 65⟩ =
      some ⟨.textBuiltinGlyph, false, 0, -9, 8, 16, 32, 48⟩ ∧
    (applyCacheOps GlyphCache.resetAll
      [CacheOp.ins ⟨none, .singleWidth, 65⟩ ⟨.textBuiltinGlyph, false, 0, -9, 8, 16, 32, 48⟩,
        CacheOp.reset]).lookup ⟨none, .singleWidth, 65⟩ = none := by
  have hno : ∀ op ∈ [CacheOp.ins ⟨some 3, .doubleWidth, 7⟩
      ⟨.textGrayscale, true, 1, 2, 3, 4, 5, 6⟩],
      op ≠ CacheOp.reset ∧ ∀ e', op ≠ CacheOp.ins ⟨none, .singleWidth, 65⟩ e' := by
    intro op hmem
    simp only [List.mem_singleton] at hmem
    subst hmem
    refine ⟨by simp, fun e' h => ?_⟩
    simp [CacheOp.ins.injEq, GlyphKey.mk.injEq] at h
  refine ⟨hno, ?_, ?_⟩
  · exact c1_lookup_after_insert_until_reset.1 GlyphCache.resetAll
      ⟨none, .singleWidth, 65⟩ ⟨.textBuiltinGlyph, false, 0, -9, 8, 16, 32, 48⟩
      [CacheOp.ins ⟨some 3, .doubleWidth, 7⟩ ⟨.textGrayscale, true, 1, 2, 3, 4, 5, 6⟩]
      hno
  · exact c1_lookup_after_insert_until_reset.2 GlyphCache.resetAll
      [CacheOp.ins ⟨none, .singleWidth, 65⟩ ⟨.textBuiltinGlyph, false, 0, -9, 8, 16, 32, 48⟩]
      ⟨none, .singleWidth, 65⟩

/-- C3: if the packer satisfies the request, no reset happens; if it cannot,
exactly one reset is performed and the allocation is retried exactly once on
the once-reset state; a second failure surfaces as an error carrying the
once-reset state — never a further retry. -/
theorem c3_alloc_exactly_one_retry {σ : Type}
    (pack : σ → Int × Int → Option (σ × Nat × Nat)) (reset : σ → σ) (s : σ) (r : Int × Int) :
    (∀ out, pack s r = some out → drawGlyphAtlasAllocate pack reset s r = .ok out) ∧
    (pack s r = none → ∀ out, pack (reset s) r = some out →
      drawGlyphAtlasAllocate pack reset s r = .ok out) ∧
    (pack s r = none → pack (reset s) r = none →
      drawGlyphAtlasAllocate pack reset s r = .error (reset s)) := by
  refine ⟨fun out h => ?_, fun h1 out h2 => ?_, fun h1 h2 => ?_⟩ <;>
    simp [drawGlyphAtlasAllocate, *]

/-- Witness for `c3_alloc_exactly_one_retry`: a packer over state `Nat` that
fails below capacity 5 and succeeds afterwards; the reset raises the capacity,
so the first failure is followed by exactly one successful retry, while a
never-succeeding packer yields the error with the once-reset state. -/
theorem c3_alloc_exactly_one_retry_witness :
    drawGlyphAtlasAllocate
      (fun s _r => if 5 ≤ s then some (s, 1, 2) else none) (fun s => s + 10) 0 (4, 4) =
      .ok (10, 1, 2) ∧
    drawGlyphAtlasAllocate (fun _ _ => (none : Option (Nat × Nat × Nat)))
      (fun s => s + 10) 0 (4, 4) = .error 10 := by
  constructor
  · exact (c3_alloc_exactly_one_retry
      (fun s _r => if 5 ≤ s then some (s, 1, 2) else none) (fun s => s + 10) 0 (4, 4)).2.1
      (by decide) (10, 1, 2) (by decide)
  · exact (c3_alloc_exactly_one_retry (fun _ _ => none) (fun s => s + 10) 0 (4, 4)).2.2
      rfl rfl

theorem clampI_mem (v lo hi : Int) (h : lo ≤ hi) :
    lo ≤ clampI v lo hi ∧ clampI v lo hi ≤ hi := by
  unfold clampI
  simp only [min_def, max_def]
  split_ifs <;> omega

/-- C4: the two halves partition the glyph's height (`top.size.y +
bottom.size.y = size.y`, with the split point clamped into `[0, height]`);
the top half keeps the original texture coordinate and the bottom half's
`texcoord.y` is `top.texcoord.y + top.size.y`; a half of zero height has its
shading type forced to Default. -/
theorem c4_split_double_height (f : FontMetrics) (g : AtlasGlyphEntry)
    (hsize : 0 ≤ g.sizeY) (htex : (g.texY : Int) + g.sizeY < 65536) :
    0 ≤ (splitDoubleHeightGlyph f g).1.sizeY ∧
    (splitDoubleHeightGlyph f g).1.sizeY ≤ g.sizeY ∧
    (splitDoubleHeightGlyph f g).1.sizeY + (splitDoubleHeightGlyph f g).2.sizeY = g.sizeY ∧
    (splitDoubleHeightGlyph f g).1.texX = g.texX ∧
    (splitDoubleHeightGlyph f g).1.texY = g.texY ∧
    (splitDoubleHeightGlyph f g).2.texX = g.texX ∧
    ((splitDoubleHeightGlyph f g).2.texY : Int) =
      ((splitDoubleHeightGlyph f g).1.texY : Int) + (splitDoubleHeightGlyph f g).1.sizeY ∧
    ((splitDoubleHeightGlyph f g).1.sizeY = 0 →
      (splitDoubleHeightGlyph f g).1.shadingType = .defaultWhitespace) ∧
    ((splitDoubleHeightGlyph f g).2.sizeY = 0 →
      (splitDoubleHeightGlyph f g).2.shadingType = .defaultWhitespace) := by
  obtain ⟨hlo, hhi⟩ :=
    clampI_mem (-(g.offsetY - f.descender) - f.baseline) 0 g.sizeY hsize
  set topSize := clampI (-(g.offsetY - f.descender) - f.baseline) 0 g.sizeY with htop
  have hbot : max 0 (g.sizeY - topSize) = g.sizeY - topSize := by omega
  have htoNat : (((g.texY : Int) + topSize).toNat : Int) = (g.texY : Int) + topSize := by
    omega
  have hmod : u16Mod (((g.texY : Int) + topSize).toNat) = ((g.texY : Int) + topSize).toNat := by
    unfold u16Mod
    apply Nat.mod_eq_of_lt
    omega
  refine ⟨hlo, hhi, ?_, rfl, rfl, rfl, ?_, ?_, ?_⟩
  · simp only [splitDoubleHeightGlyph, ← htop, hbot]
    omega
  · simp only [splitDoubleHeightGlyph, ← htop, hmod]
    omega
  · simp only [splitDoubleHeightGlyph, ← htop]
    intro h
    simp [h]
  · simp only [splitDoubleHeightGlyph, ← htop, hbot]
    intro h
    simp [h]

/-- Witness for `c4_split_double_height`: a 20-pixel-high grayscale glyph with
baseline 12 and descender 3 in a 32-pixel double-height cell. -/
theorem c4_split_double_height_witness :
    (0 : Int) ≤ 20 ∧ ((100 : Nat) : Int) + 20 < 65536 ∧
    (splitDoubleHeightGlyph ⟨32, 12, 3⟩
      ⟨.textGrayscale, false, -1, -18, 9, 20, 100, 100⟩).1.sizeY +
    (splitDoubleHeightGlyph ⟨32, 12, 3⟩
      ⟨.textGrayscale, false, -1, -18, 9, 20, 100, 100⟩).2.sizeY = 20 :=
  ⟨by decide, by decide,
    (c4_split_double_height ⟨32, 12, 3⟩ ⟨.textGrayscale, false, -1, -18, 9, 20, 100, 100⟩
      (by decide) (by decide)).2.2.1⟩

theorem i32Wrap_eq_self (n : Int) (h1 : -2147483648 ≤ n) (h2 : n < 2147483648) :
    i32Wrap n = n := by
  unfold i32Wrap
  omega

/-- C5 counterexample: with standard ligatures disabled (thresholds at the
`i32` extremes) and a double-width line rendition (`scale = 1`), an ordinary
two-cell-wide glyph (cell width 10, rect width 20, ink bounds `[-3, 17]`)
STILL gets `overlapSplit = true`: the `<< 1` wraps `INT32_MIN` to `0` and
`INT32_MAX` to `-2`, so the claim that disabled ligatures make splitting
never trigger is false. -/
theorem c5_disabled_doublewidth_still_splits :
    ligatureOverhangTriggers true 10 10 = (coordTypeMin, coordTypeMax) ∧
    overlapSplitFlag coordTypeMin coordTypeMax 1 10 20 (-3) 17 = true := by
  constructor
  · rfl
  · decide

/-- C5 amended: (i) a glyph narrower than one cell never has `overlapSplit`;
(ii) on single-width rows with ligatures enabled, a glyph at least one cell
wide whose ink box crosses `-halfCellWidth` on the left or
`advanceWidth + halfCellWidth` on the right has `overlapSplit = true`;
(iii) on single-width rows with ligatures disabled the sentinel thresholds
make `overlapSplit` false for every representable ink box strictly inside the
`i32` range; (iv) on non-single-width rows (`scale = 1`) the disabled-case
sentinels wrap to `0` and `-2`, so the flag degenerates to
`w ≥ cellWidth && (bl ≤ 0 || br ≥ -2)` and can still be set. -/
theorem c5_overlap_split_amended :
    (∀ tl tr : Int, ∀ scale : Nat, ∀ cellSizeX w bl br : Int,
      w < cellSizeX → overlapSplitFlag tl tr scale cellSizeX w bl br = false) ∧
    (∀ cellSizeX advanceWidth w bl br : Int,
      0 ≤ cellSizeX → cellSizeX ≤ 65535 → 0 ≤ advanceWidth → advanceWidth ≤ 65535 →
      cellSizeX ≤ w →
      (bl ≤ -(Int.tdiv cellSizeX 2) ∨ advanceWidth + Int.tdiv cellSizeX 2 ≤ br) →
      overlapSplitFlag (ligatureOverhangTriggers false cellSizeX advanceWidth).1
        (ligatureOverhangTriggers false cellSizeX advanceWidth).2 0 cellSizeX w bl br = true) ∧
    (∀ cellSizeX advanceWidth w bl br : Int,
      coordTypeMin < bl → br < coordTypeMax →
      overlapSplitFlag (ligatureOverhangTriggers true cellSizeX advanceWidth).1
        (ligatureOverhangTriggers true cellSizeX advanceWidth).2 0 cellSizeX w bl br = false) ∧
    (∀ cellSizeX advanceWidth w bl br : Int,
      overlapSplitFlag (ligatureOverhangTriggers true cellSizeX advanceWidth).1
        (ligatureOverhangTriggers true cellSizeX advanceWidth).2 1 cellSizeX w bl br =
        (decide (cellSizeX ≤ w) && (decide (bl ≤ 0) || decide ((-2 : Int) ≤ br)))) := by
  refine ⟨?_, ?_, ?_, ?_⟩
  · intro tl tr scale cellSizeX w bl br hw
    simp only [overlapSplitFlag, Bool.and_eq_false_imp]
    intro h
    exact absurd (of_decide_eq_true h) (by omega)
  · intro cellSizeX advanceWidth w bl br hc0 hc1 ha0 ha1 hw hcross
    have he : Int.tdiv cellSizeX 2 = cellSizeX / 2 := Int.tdiv_eq_ediv hc0 (by norm_num)
    rw [he] at hcross
    simp only [ligatureOverhangTriggers, overlapSplitFlag, pow_zero, mul_one, he]
    rw [i32Wrap_eq_self _ (by omega) (by omega), i32Wrap_eq_self _ (by omega) (by omega)]
    rcases hcross with h | h <;> simp [hw, h]
  · intro cellSizeX advanceWidth w bl br hbl hbr
    simp only [ligatureOverhangTriggers, overlapSplitFlag, pow_zero, mul_one]
    rw [i32Wrap_eq_self coordTypeMin (by norm_num [coordTypeMin]) (by norm_num [coordTypeMin]),
      i32Wrap_eq_self coordTypeMax (by norm_num [coordTypeMax]) (by norm_num [coordTypeMax])]
    have h1 : ¬ (bl ≤ coordTypeMin) := by omega
    have h2 : ¬ (coordTypeMax ≤ br) := by omega
    simp [h1, h2]
  · intro cellSizeX advanceWidth w bl br
    simp only [ligatureOverhangTriggers, overlapSplitFlag]
    have h1 : i32Wrap (coordTypeMin * 2 ^ 1) = 0 := by decide
    have h2 : i32Wrap (coordTypeMax * 2 ^ 1) = -2 := by decide
    simp only [h1, h2]

/-- Witness for `c5_overlap_split_amended`: concrete checks of all four
conjuncts — a 6-wide glyph in a 10-wide cell never splits; an 18-wide
single-width ligature crossing the left threshold splits; the disabled case
on a single-width row does not split even for the same wide glyph; and on a
double-width row the disabled case degenerates as stated. -/
theorem c5_overlap_split_amended_witness :
    overlapSplitFlag 77 99 0 10 6 (-100) 100 = false ∧
    ((-6 : Int) ≤ -(Int.tdiv 10 2) ∨ (10 : Int) + Int.tdiv 10 2 ≤ 12) ∧
    overlapSplitFlag (ligatureOverhangTriggers false 10 10).1
      (ligatureOverhangTriggers false 10 10).2 0 10 18 (-6) 12 = true ∧
    overlapSplitFlag (ligatureOverhangTriggers true 10 10).1
      (ligatureOverhangTriggers true 10 10).2 0 10 18 (-6) 12 = false ∧
    overlapSplitFlag (ligatureOverhangTriggers true 10 10).1
      (ligatureOverhangTriggers true 10 10).2 1 10 18 (-6) 12 =
      (decide ((10 : Int) ≤ 18) && (decide ((-6 : Int) ≤ 0) || decide ((-2 : Int) ≤ 12))) :=
  ⟨c5_overlap_split_amended.1 77 99 0 10 6 (-100) 100 (by decide),
    Or.inl (by decide),
    c5_overlap_split_amended.2.1 10 10 18 (-6) 12 (by decide) (by decide) (by decide)
      (by decide) (by decide) (Or.inl (by decide)),
    c5_overlap_split_amended.2.2.1 10 10 18 (-6) 12 (by decide) (by decide),
    c5_overlap_split_amended.2.2.2 10 10 18 (-6) 12⟩

/-- C8 counterexample: a smaller target surface DOES shrink the atlas.  With
an 8x16 font and a 2048x2048 atlas, a reset while the target surface is
640x480 computes 1024x1024 (the 1.25x-target cap, 384000, is clamped up to
`minArea` = 2^20): the area drops from 2^22 to 2^20, so "a smaller target
surface area must not cause the atlas dimensions to shrink" is false. -/
theorem c8_smaller_target_shrinks :
    resetAtlasUV 8 16 640 480 2048 2048 = (1024, 1024) ∧
    (resetGlyphAtlasStep 8 16 640 480 ⟨2048, 2048, GlyphCache.resetAll⟩).1.packW *
      (resetGlyphAtlasStep 8 16 640 480 ⟨2048, 2048, GlyphCache.resetAll⟩).1.packH <
      2048 * 2048 ∧
    (resetGlyphAtlasStep 8 16 640 480 ⟨2048, 2048, GlyphCache.resetAll⟩).2 = true := by
  refine ⟨by decide, ?_, ?_⟩ <;> decide

/-- C8 amended: the atlas is resized on reset exactly when the computed
power-of-two dimensions differ from the current ones — it can both grow and
shrink (a smaller target surface area shrinks it, see
`c8_smaller_target_shrinks`) — but every reset clears every glyph container,
so no glyph entry is ever live while the area decreases; the dimensions after
the reset are the sizing-policy result, whose area lies in
`[minArea, maxArea]`. -/
theorem c8_reset_resize_amended (cellSizeX cellSizeY targetSizeX targetSizeY : Nat)
    (s : AtlasResetState) :
    (∀ k, (resetGlyphAtlasStep cellSizeX cellSizeY targetSizeX targetSizeY s).1.cache.lookup k
      = none) ∧
    ((resetGlyphAtlasStep cellSizeX cellSizeY targetSizeX targetSizeY s).1.packW,
      (resetGlyphAtlasStep cellSizeX cellSizeY targetSizeX targetSizeY s).1.packH) =
      resetAtlasUV cellSizeX cellSizeY targetSizeX targetSizeY s.packW s.packH ∧
    ((resetGlyphAtlasStep cellSizeX cellSizeY targetSizeX targetSizeY s).2 = false ↔
      resetAtlasUV cellSizeX cellSizeY targetSizeX targetSizeY s.packW s.packH =
        (s.packW, s.packH)) ∧
    minArea ≤ resetAtlasArea cellSizeX cellSizeY targetSizeX targetSizeY s.packW s.packH ∧
    resetAtlasArea cellSizeX cellSizeY targetSizeX targetSizeY s.packW s.packH ≤ maxArea := by
  obtain ⟨h1, h2⟩ := resetAtlasArea_mem cellSizeX cellSizeY targetSizeX targetSizeY s.packW s.packH
  refine ⟨fun k => GlyphCache.lookup_resetAll k, rfl, ?_, h1, h2⟩
  simp [resetGlyphAtlasStep]

theorem splitDoubleHeightGlyph_overlapSplit (f : FontMetrics) (g : AtlasGlyphEntry) :
    (splitDoubleHeightGlyph f g).1.overlapSplit = g.overlapSplit ∧
    (splitDoubleHeightGlyph f g).2.overlapSplit = g.overlapSplit :=
  ⟨rfl, rfl⟩

theorem storeGlyphEntry_snd_overlapSplit (font : FontSettings) (face : Option Nat)
    (rend : LineRendition) (gi : Nat) (c : GlyphCache) (e : AtlasGlyphEntry) :
    (storeGlyphEntry font face rend gi c e).2.overlapSplit = e.overlapSplit := by
  cases rend <;> simp [storeGlyphEntry, splitDoubleHeightGlyph]

theorem lookup_insert2_mem (c : GlyphCache) (k1 k2 k : GlyphKey)
    (e1 e2 e' : AtlasGlyphEntry)
    (h : ((c.insertEntry k1 e1).insertEntry k2 e2).lookup k = some e') :
    c.lookup k = some e' ∨ e' = e1 ∨ e' = e2 := by
  by_cases h2 : k = k2
  · subst h2
    rw [GlyphCache.lookup_insertEntry_self] at h
    cases h
    exact Or.inr (Or.inr rfl)
  · rw [GlyphCache.lookup_insertEntry_other _ _ _ _ h2] at h
    by_cases h1 : k = k1
    · subst h1
      rw [GlyphCache.lookup_insertEntry_self] at h
      cases h
      exact Or.inr (Or.inl rfl)
    · rw [GlyphCache.lookup_insertEntry_other _ _ _ _ h1] at h
      exact Or.inl h

theorem storeGlyphEntry_lookup_mem (font : FontSettings) (face : Option Nat)
    (rend : LineRendition) (gi : Nat) (c : GlyphCache) (e : AtlasGlyphEntry)
    (k : GlyphKey) (e' : AtlasGlyphEntry)
    (h : (storeGlyphEntry font face rend gi c e).1.lookup k = some e') :
    c.lookup k = some e' ∨ e'.overlapSplit = e.overlapSplit := by
  cases rend <;> simp only [storeGlyphEntry] at h
  case doubleHeightTop =>
    rcases lookup_insert2_mem _ _ _ _ _ _ _ h with hc | he | he
    · exact Or.inl hc
    · subst he
      exact Or.inr (splitDoubleHeightGlyph_overlapSplit _ e).1
    · subst he
      exact Or.inr (splitDoubleHeightGlyph_overlapSplit _ e).2
  case doubleHeightBottom =>
    rcases lookup_insert2_mem _ _ _ _ _ _ _ h with hc | he | he
    · exact Or.inl hc
    · subst he
      exact Or.inr (splitDoubleHeightGlyph_overlapSplit _ e).2
    · subst he
      exact Or.inr (splitDoubleHeightGlyph_overlapSplit _ e).1
  case singleWidth =>
    by_cases h1 : k = ⟨face, .singleWidth, gi⟩
    · subst h1
      rw [GlyphCache.lookup_insertEntry_self] at h
      cases h
      exact Or.inr rfl
    · rw [GlyphCache.lookup_insertEntry_other _ _ _ _ h1] at h
      exact Or.inl h
  case doubleWidth =>
    by_cases h1 : k = ⟨face, .doubleWidth, gi⟩
    · subst h1
      rw [GlyphCache.lookup_insertEntry_self] at h
      cases h
      exact Or.inr rfl
    · rw [GlyphCache.lookup_insertEntry_other _ _ _ _ h1] at h
      exact Or.inl h

theorem allocate_cache_cases {σ : Type} (pack : σ → Int × Int → Option (σ × Nat × Nat))
    (resetPacker : σ → σ) (st st1 : AtlasState σ) (r : Int × Int) (x y : Nat)
    (h : drawGlyphAtlasAllocate (packLift pack) (atlasResetDuringDraw resetPacker) st r =
      .ok (st1, x, y)) :
    st1.cache = st.cache ∨ st1.cache = GlyphCache.resetAll := by
  unfold drawGlyphAtlasAllocate at h
  cases h1 : packLift pack st r with
  | some out =>
    rw [h1] at h
    cases h
    unfold packLift at h1
    cases h2 : pack st.packer r with
    | some out2 =>
      rw [h2] at h1
      obtain ⟨q, a, b⟩ := out2
      cases h1
      exact Or.inl rfl
    | none => rw [h2] at h1; cases h1
  | none =>
    rw [h1] at h
    cases h2 : packLift pack (atlasResetDuringDraw resetPacker st) r with
    | some out =>
      rw [h2] at h
      cases h
      unfold packLift atlasResetDuringDraw at h2
      cases h3 : pack (resetPacker st.packer) r with
      | some out2 =>
        simp only [h3] at h2
        obtain ⟨q, a, b⟩ := out2
        cases h2
        exact Or.inr rfl
      | none => simp only [h3] at h2; cases h2
    | none => rw [h2] at h; cases h

/-- C10: every entry created by the builtin/soft-font path
(`_drawBuiltinGlyph`) has `overlapSplit = 0`: the returned entry, and every
cache entry the call adds (including the second double-height half), even for
double-width renditions whose rectangle is two cells wide. -/
theorem c10_builtin_glyphs_no_overlap_split {σ : Type}
    (pack : σ → Int × Int → Option (σ × Nat × Nat)) (resetPacker : σ → σ)
    (p : RenderingPayload) (rend : LineRendition) (gi : Nat)
    (st st1 : AtlasState σ) (e : AtlasGlyphEntry)
    (h : drawBuiltinGlyph pack resetPacker p rend gi st = .ok (st1, e)) :
    e.overlapSplit = false ∧
    ∀ k e', st1.cache.lookup k = some e' →
      st.cache.lookup k = some e' ∨ e'.overlapSplit = false := by
  cases halloc : drawGlyphAtlasAllocate (packLift pack) (atlasResetDuringDraw resetPacker) st
      (if rend.wide = true then p.font.cellSizeX * 2 else p.font.cellSizeX,
        if rend.tall = true then p.font.cellSizeY * 2 else p.font.cellSizeY) with
  | error stE =>
    simp only [drawBuiltinGlyph, halloc] at h
    exact Except.noConfusion h
  | ok out =>
    obtain ⟨stA, x, y⟩ := out
    simp only [drawBuiltinGlyph, halloc, Except.ok.injEq, Prod.mk.injEq] at h
    obtain ⟨hst, he⟩ := h
    constructor
    · rw [← he, storeGlyphEntry_snd_overlapSplit]
    · intro k e' hk
      rw [← hst] at hk
      rcases storeGlyphEntry_lookup_mem _ _ _ _ _ _ _ _ hk with hmem | hsplit
      · rcases allocate_cache_cases pack resetPacker st stA _ x y halloc with hc | hc
        · rw [hc] at hmem
          exact Or.inl hmem
        · rw [hc, GlyphCache.lookup_resetAll] at hmem
          cases hmem
      · exact Or.inr hsplit

/-- Witness for `c10_builtin_glyphs_no_overlap_split`: the box-drawing glyph
U+2500 on a double-width row (atlas rectangle 20x20, two cells wide) gets
`overlapSplit = false`. -/
theorem c10_builtin_glyphs_no_overlap_split_witness :
    entryOf (drawBuiltinGlyph (fun (s : Nat) _ => some (s + 1, 3, 4)) (fun q => q)
      c10payload .doubleWidth 9472 ⟨GlyphCache.resetAll, 0⟩) =
      some ⟨.textBuiltinGlyph, false, 0, -15, 20, 20, 3, 4⟩ ∧
    (⟨ShadingType.textBuiltinGlyph, false, 0, -15, 20, 20, 3, 4⟩ :
      AtlasGlyphEntry).overlapSplit = false := by
  have h : drawBuiltinGlyph (fun (s : Nat) _ => some (s + 1, 3, 4)) (fun q => q)
      c10payload .doubleWidth 9472 ⟨GlyphCache.resetAll, 0⟩ =
      .ok (⟨GlyphCache.resetAll.insertEntry ⟨none, .doubleWidth, 9472⟩
        ⟨.textBuiltinGlyph, false, 0, -15, 20, 20, 3, 4⟩, 1⟩,
        ⟨.textBuiltinGlyph, false, 0, -15, 20, 20, 3, 4⟩) := rfl
  exact ⟨by rw [h]; rfl,
    (c10_builtin_glyphs_no_overlap_split _ _ c10payload .doubleWidth 9472 _ _ _ h).1⟩

/-- C9: the unchecked cell writes of `_drawText` go out of bounds of the
fixed `Cell _cells[30][120]` array.  A non-whitespace glyph whose advance
offset places it at pixel 1495 in a 10-pixel-wide cell grid (column 150 —
reachable whenever the configured viewport is wider than 120 columns) is
stamped at `cx = 150 ≥ 120`; a glyph with a negative position is stamped at
`cx = -2 < 0`.  Both violate the bounds the unchecked `_cells[cy][cx]`
writes require. -/
theorem c9_cell_stamp_out_of_bounds :
    glyphStamps c9font .singleWidth 0 0 ⟨65, 1495, 0, 10⟩
      ⟨.textGrayscale, false, 0, -10, 6, 12, 11, 12⟩ = [⟨0, 150, 11, 12⟩] ∧
    ¬ stampInBounds ⟨0, 150, 11, 12⟩ ∧
    glyphStamps c9font .singleWidth 0 0 ⟨65, -25, 0, 10⟩
      ⟨.textGrayscale, false, 0, -10, 6, 12, 11, 12⟩ = [⟨0, -2, 11, 12⟩] ∧
    ¬ stampInBounds ⟨0, -2, 11, 12⟩ := by
  refine ⟨?_, ?_, ?_, ?_⟩ <;> decide

/-- C7: in the 120x30 single-glyph scenario, the frame stamps exactly one
cell — (column 5, row 0) — with the glyph's (non-sentinel) atlas coordinates;
the cached entry's shading type is TextGrayscale (not Default); and every
other cell of the row keeps the "no glyph" sentinel written by
`_drawBackground`. -/
theorem c7_single_glyph_frame :
    renderStamps (render c7pack (fun q => q) c7state c7payload) = [⟨0, 5, 8, 9⟩] ∧
    renderLookup (render c7pack (fun q => q) c7state c7payload) ⟨some 7, .singleWidth, 65⟩ =
      some ⟨.textGrayscale, false, 1, -10, 6, 12, 8, 9⟩ ∧
    ShadingType.textGrayscale ≠ ShadingType.defaultWhitespace ∧
    (finalCells c7payload
      (renderStamps (render c7pack (fun q => q) c7state c7payload)) 0 5).glyphX = 8 ∧
    (finalCells c7payload
      (renderStamps (render c7pack (fun q => q) c7state c7payload)) 0 5).glyphY = 9 ∧
    (8 : Nat) ≠ noGlyphSentinel ∧ (9 : Nat) ≠ noGlyphSentinel ∧
    (∀ x : Int, x ≠ 5 →
      (finalCells c7payload
        (renderStamps (render c7pack (fun q => q) c7state c7payload)) 0 x).glyphX =
        noGlyphSentinel ∧
      (finalCells c7payload
        (renderStamps (render c7pack (fun q => q) c7state c7payload)) 0 x).glyphY =
        noGlyphSentinel) := by
  have hs : renderStamps (render c7pack (fun q => q) c7state c7payload) = [⟨0, 5, 8, 9⟩] := by
    decide
  refine ⟨hs, by decide, by decide, by rw [hs]; decide, by rw [hs]; decide,
    by decide, by decide, ?_⟩
  intro x hx
  rw [hs]
  simp only [finalCells, applyStamps, List.foldl_cons, List.foldl_nil, applyStamp,
    drawBackgroundGrid]
  simp [hx]

/-- Witness for `c7_single_glyph_frame` (its last conjunct has the hypothesis
`x ≠ 5`): column 4 of the row keeps the sentinel. -/
theorem c7_single_glyph_frame_witness :
    (4 : Int) ≠ 5 ∧
    (finalCells c7payload
      (renderStamps (render c7pack (fun q => q) c7state c7payload)) 0 4).glyphX =
      noGlyphSentinel :=
  ⟨by decide, (c7_single_glyph_frame.2.2.2.2.2.2.2 4 (by decide)).1⟩

/-- C6 counterexample: with an unchanged payload and no resource recreation on
either call, two consecutive `render` calls do NOT produce an identical cell
grid when the first frame overflows the atlas mid-draw.  Frame 1 stamps glyph
65 at atlas x = 0, then the overflow reset (triggered by glyph 66) clears the
cache; frame 2 re-rasterizes glyph 65 at atlas x = 10, so cell (0,0) differs
between the frames. -/
theorem c6_overflow_breaks_idempotence :
    renderStamps (render c6pack c6resetPacker c6state c6payload) =
      [⟨0, 0, 0, 0⟩, ⟨0, 2, 0, 0⟩] ∧
    renderStamps (renderTwice c6pack c6resetPacker c6state c6payload) =
      [⟨0, 0, 10, 0⟩, ⟨0, 2, 0, 0⟩] ∧
    (finalCells c6payload [⟨0, 0, 0, 0⟩, ⟨0, 2, 0, 0⟩] 0 0).glyphX ≠
      (finalCells c6payload [⟨0, 0, 10, 0⟩, ⟨0, 2, 0, 0⟩] 0 0).glyphX := by
  refine ⟨?_, ?_, ?_⟩ <;> decide

theorem cacheExt_refl (c : GlyphCache) : CacheExt c c := fun _ _ h => h

theorem cacheExt_trans {a b c : GlyphCache} (h1 : CacheExt a b) (h2 : CacheExt b c) :
    CacheExt a c := fun k e h => h2 k e (h1 k e h)

theorem cachePaired_resetAll (p : RenderingPayload) : CachePaired p GlyphCache.resetAll :=
  ⟨fun _ _ _ => by rw [GlyphCache.lookup_resetAll, GlyphCache.lookup_resetAll],
    fun _ => by rw [GlyphCache.lookup_resetAll, GlyphCache.lookup_resetAll]⟩

theorem cacheExt_insert_absent (c : GlyphCache) (k : GlyphKey) (e : AtlasGlyphEntry)
    (h : c.lookup k = none) : CacheExt c (c.insertEntry k e) := by
  intro k' e' h'
  by_cases hk : k' = k
  · subst hk
    rw [h'] at h
    cases h
  · rw [GlyphCache.lookup_insertEntry_other _ _ _ _ hk]
    exact h'

theorem cacheExt_insert2_absent (c : GlyphCache) (k1 k2 : GlyphKey)
    (e1 e2 : AtlasGlyphEntry) (h1 : c.lookup k1 = none) (h2 : c.lookup k2 = none) :
    CacheExt c ((c.insertEntry k1 e1).insertEntry k2 e2) := by
  intro k' e' h'
  by_cases hk2 : k' = k2
  · subst hk2
    rw [h'] at h2
    cases h2
  · rw [GlyphCache.lookup_insertEntry_other _ _ _ _ hk2]
    exact cacheExt_insert_absent c k1 e1 h1 k' e' h'

theorem lookup_insert2_fst (c : GlyphCache) (k1 k2 : GlyphKey) (e1 e2 : AtlasGlyphEntry)
    (h : k1 ≠ k2) : ((c.insertEntry k1 e1).insertEntry k2 e2).lookup k1 = some e1 := by
  rw [GlyphCache.lookup_insertEntry_other _ _ _ _ h, GlyphCache.lookup_insertEntry_self]

theorem lookup_insert2_untouched (c : GlyphCache) (k1 k2 k : GlyphKey)
    (e1 e2 : AtlasGlyphEntry) (h1 : k ≠ k1) (h2 : k ≠ k2) :
    ((c.insertEntry k1 e1).insertEntry k2 e2).lookup k = c.lookup k := by
  rw [GlyphCache.lookup_insertEntry_other _ _ _ _ h2,
    GlyphCache.lookup_insertEntry_other _ _ _ _ h1]

theorem cachePaired_insert_nonpair (p : RenderingPayload) (c : GlyphCache) (k : GlyphKey)
    (e : AtlasGlyphEntry)
    (hrend : k.rendition ≠ .doubleHeightTop ∧ k.rendition ≠ .doubleHeightBottom)
    (h : CachePaired p c) : CachePaired p (c.insertEntry k e) := by
  have hne : ∀ (f : Option Nat) (gi : Nat) (r : LineRendition),
      r = LineRendition.doubleHeightTop ∨ r = LineRendition.doubleHeightBottom →
      (⟨f, r, gi⟩ : GlyphKey) ≠ k := by
    intro f gi r hr he
    rw [← he] at hrend
    rcases hr with hr | hr <;> simp [hr] at hrend
  constructor
  · intro face gi hrast
    rw [GlyphCache.lookup_insertEntry_other _ _ _ _ (hne _ _ _ (Or.inl rfl)),
      GlyphCache.lookup_insertEntry_other _ _ _ _ (hne _ _ _ (Or.inr rfl))]
    exact h.1 face gi hrast
  · intro gi
    rw [GlyphCache.lookup_insertEntry_other _ _ _ _ (hne _ _ _ (Or.inl rfl)),
      GlyphCache.lookup_insertEntry_other _ _ _ _ (hne _ _ _ (Or.inr rfl))]
    exact h.2 gi

theorem cachePaired_insert_whitespace_tall (p : RenderingPayload) (c : GlyphCache)
    (face : Nat) (gi : Nat) (rend : LineRendition) (e : AtlasGlyphEntry)
    (hrast : p.rasterize face true true gi = none)
    (h : CachePaired p c) :
    CachePaired p (c.insertEntry ⟨some face, rend, gi⟩ e) := by
  constructor
  · intro face' gi' hrast'
    by_cases hsame : face' = face ∧ gi' = gi
    · exact absurd (hsame.1 ▸ hsame.2 ▸ hrast') (by simp [hrast])
    · have hne : ∀ r : LineRendition, (⟨some face', r, gi'⟩ : GlyphKey) ≠
          ⟨some face, rend, gi⟩ := by
        intro r he
        injection he with h1 h2 h3
        exact hsame ⟨Option.some.inj h1, h3⟩
      rw [GlyphCache.lookup_insertEntry_other _ _ _ _ (hne _),
        GlyphCache.lookup_insertEntry_other _ _ _ _ (hne _)]
      exact h.1 face' gi' hrast'
  · intro gi'
    have hne : ∀ r : LineRendition, (⟨none, r, gi'⟩ : GlyphKey) ≠
        ⟨some face, rend, gi⟩ := by
      intro r he
      injection he with h1 h2 h3
      cases h1
    rw [GlyphCache.lookup_insertEntry_other _ _ _ _ (hne _),
      GlyphCache.lookup_insertEntry_other _ _ _ _ (hne _)]
    exact h.2 gi'

theorem cachePaired_of_bothHalves (p : RenderingPayload) (c c' : GlyphCache)
    (face : Option Nat) (gi : Nat)
    (hT : ((c'.lookup ⟨face, .doubleHeightTop, gi⟩).isSome : Prop))
    (hB : ((c'.lookup ⟨face, .doubleHeightBottom, gi⟩).isSome : Prop))
    (huntouched : ∀ k : GlyphKey, k.face ≠ face ∨ k.index ≠ gi →
      c'.lookup k = c.lookup k)
    (h : CachePaired p c) : CachePaired p c' := by
  constructor
  · intro face' gi' hrast'
    by_cases hsame : (some face' : Option Nat) = face ∧ gi' = gi
    · rw [← hsame.1, ← hsame.2] at hT hB
      simp only [hT, hB]
    · have hcond : ∀ r : LineRendition, (⟨some face', r, gi'⟩ : GlyphKey).face ≠ face ∨
          (⟨some face', r, gi'⟩ : GlyphKey).index ≠ gi := by
        intro r
        by_cases h1 : (some face' : Option Nat) = face
        · exact Or.inr fun h2 => hsame ⟨h1, h2⟩
        · exact Or.inl h1
      rw [huntouched _ (hcond _), huntouched _ (hcond _)]
      exact h.1 face' gi' hrast'
  · intro gi'
    by_cases hsame : (none : Option Nat) = face ∧ gi' = gi
    · rw [← hsame.1, ← hsame.2] at hT hB
      simp only [hT, hB]
    · have hcond : ∀ r : LineRendition, (⟨none, r, gi'⟩ : GlyphKey).face ≠ face ∨
          (⟨none, r, gi'⟩ : GlyphKey).index ≠ gi := by
        intro r
        by_cases h1 : (none : Option Nat) = face
        · exact Or.inr fun h2 => hsame ⟨h1, h2⟩
        · exact Or.inl h1
      rw [huntouched _ (hcond _), huntouched _ (hcond _)]
      exact h.2 gi'

theorem key_ne_of_component (k : GlyphKey) (face : Option Nat) (r : LineRendition)
    (gi : Nat) (h : k.face ≠ face ∨ k.index ≠ gi) : k ≠ ⟨face, r, gi⟩ := by
  intro he
  subst he
  simp at h

theorem allocate_total {σ : Type} (pack : σ → Int × Int → Option (σ × Nat × Nat))
    (resetPacker : σ → σ) (st : AtlasState σ) (r : Int × Int)
    (hpack : ∀ q r, (pack q r).isSome) :
    ∃ q x y, pack st.packer r = some (q, x, y) ∧
      drawGlyphAtlasAllocate (packLift pack) (atlasResetDuringDraw resetPacker) st r =
        .ok (⟨st.cache, q⟩, x, y) := by
  obtain ⟨out, hout⟩ := Option.isSome_iff_exists.mp (hpack st.packer r)
  obtain ⟨q, x, y⟩ := out
  exact ⟨q, x, y, hout, by simp [drawGlyphAtlasAllocate, packLift, hout]⟩

theorem option_none_of_iff {α : Type} {a b : Option α}
    (h : (a.isSome : Prop) ↔ (b.isSome : Prop)) (ha : a = none) : b = none := by
  subst ha
  cases b with
  | none => rfl
  | some x => simp at h

theorem drawGlyph_spec {σ : Type} (pack : σ → Int × Int → Option (σ × Nat × Nat))
    (resetPacker : σ → σ) (p : RenderingPayload) (rend : LineRendition)
    (face : Option Nat) (gi : Nat) (st : AtlasState σ)
    (hpack : ∀ q r, (pack q r).isSome)
    (hinv : CachePaired p st.cache)
    (hlook : st.cache.lookup ⟨face, rend, gi⟩ = none) :
    ∃ (st1 : AtlasState σ) (e : AtlasGlyphEntry),
      drawGlyph pack resetPacker p rend face gi st = .ok (st1, e) ∧
      CacheExt st.cache st1.cache ∧
      CachePaired p st1.cache ∧
      st1.cache.lookup ⟨face, rend, gi⟩ = some e := by
  have hTB : ∀ f : Option Nat,
      (⟨f, .doubleHeightTop, gi⟩ : GlyphKey) ≠ ⟨f, .doubleHeightBottom, gi⟩ := by
    intro f
    simp
  cases face with
  | none =>
    obtain ⟨q, x, y, hout, hA⟩ := allocate_total pack resetPacker st
      (if rend.wide = true then p.font.cellSizeX * 2 else p.font.cellSizeX,
        if rend.tall = true then p.font.cellSizeY * 2 else p.font.cellSizeY) hpack
    cases rend with
    | singleWidth =>
      refine ⟨_, _, by simp only [drawGlyph, drawBuiltinGlyph, hA, storeGlyphEntry]; exact rfl,
        ?_, ?_, ?_⟩ <;> dsimp only
      · exact cacheExt_insert_absent _ _ _ hlook
      · exact cachePaired_insert_nonpair p _ ⟨none, .singleWidth, gi⟩ _ (by simp) hinv
      · exact GlyphCache.lookup_insertEntry_self _ _ _
    | doubleWidth =>
      refine ⟨_, _, by simp only [drawGlyph, drawBuiltinGlyph, hA, storeGlyphEntry]; exact rfl,
        ?_, ?_, ?_⟩ <;> dsimp only
      · exact cacheExt_insert_absent _ _ _ hlook
      · exact cachePaired_insert_nonpair p _ ⟨none, .doubleWidth, gi⟩ _ (by simp) hinv
      · exact GlyphCache.lookup_insertEntry_self _ _ _
    | doubleHeightTop =>
      have hoth : st.cache.lookup ⟨none, .doubleHeightBottom, gi⟩ = none :=
        option_none_of_iff (hinv.2 gi) hlook
      refine ⟨_, _, by simp only [drawGlyph, drawBuiltinGlyph, hA, storeGlyphEntry]; exact rfl,
        ?_, ?_, ?_⟩ <;> dsimp only
      · exact cacheExt_insert2_absent _ _ _ _ _ hlook hoth
      · refine cachePaired_of_bothHalves p st.cache _ none gi ?_ ?_ ?_ hinv
        · rw [lookup_insert2_fst _ _ _ _ _ (hTB none)]
          simp
        · rw [GlyphCache.lookup_insertEntry_self]
          simp
        · intro k hk
          exact lookup_insert2_untouched _ _ _ _ _ _
            (key_ne_of_component k none _ gi hk) (key_ne_of_component k none _ gi hk)
      · exact lookup_insert2_fst _ _ _ _ _ (hTB none)
    | doubleHeightBottom =>
      have hoth : st.cache.lookup ⟨none, .doubleHeightTop, gi⟩ = none :=
        option_none_of_iff (hinv.2 gi).symm hlook
      refine ⟨_, _, by simp only [drawGlyph, drawBuiltinGlyph, hA, storeGlyphEntry]; exact rfl,
        ?_, ?_, ?_⟩ <;> dsimp only
      · exact cacheExt_insert2_absent _ _ _ _ _ hlook hoth
      · refine cachePaired_of_bothHalves p st.cache _ none gi ?_ ?_ ?_ hinv
        · rw [GlyphCache.lookup_insertEntry_self]
          simp
        · rw [lookup_insert2_fst _ _ _ _ _ (hTB none).symm]
          simp
        · intro k hk
          exact lookup_insert2_untouched _ _ _ _ _ _
            (key_ne_of_component k none _ gi hk) (key_ne_of_component k none _ gi hk)
      · exact lookup_insert2_fst _ _ _ _ _ (hTB none).symm
  | some f =>
    cases hrast : p.rasterize f rend.wide rend.tall gi with
    | none =>
      refine ⟨_, _, by simp only [drawGlyph, drawGlyphWithFace, hrast]; exact rfl,
        ?_, ?_, ?_⟩ <;> dsimp only
      · exact cacheExt_insert_absent _ _ _ hlook
      · cases rend with
        | singleWidth =>
          exact cachePaired_insert_nonpair p _ ⟨some f, .singleWidth, gi⟩ _ (by simp) hinv
        | doubleWidth =>
          exact cachePaired_insert_nonpair p _ ⟨some f, .doubleWidth, gi⟩ _ (by simp) hinv
        | doubleHeightTop => exact cachePaired_insert_whitespace_tall p _ f gi _ _ hrast hinv
        | doubleHeightBottom => exact cachePaired_insert_whitespace_tall p _ f gi _ _ hrast hinv
      · exact GlyphCache.lookup_insertEntry_self _ _ _
    | some ink =>
      obtain ⟨q, x, y, hout, hA⟩ := allocate_total pack resetPacker st
        (ink.br - ink.bl, ink.bb - ink.bt) hpack
      cases rend with
      | singleWidth =>
        refine ⟨_, _,
          by simp only [drawGlyph, drawGlyphWithFace, hrast, hA, storeGlyphEntry]; exact rfl,
          ?_, ?_, ?_⟩ <;> dsimp only
        · exact cacheExt_insert_absent _ _ _ hlook
        · exact cachePaired_insert_nonpair p _ ⟨some f, .singleWidth, gi⟩ _ (by simp) hinv
        · exact GlyphCache.lookup_insertEntry_self _ _ _
      | doubleWidth =>
        refine ⟨_, _,
          by simp only [drawGlyph, drawGlyphWithFace, hrast, hA, storeGlyphEntry]; exact rfl,
          ?_, ?_, ?_⟩ <;> dsimp only
        · exact cacheExt_insert_absent _ _ _ hlook
        · exact cachePaired_insert_nonpair p _ ⟨some f, .doubleWidth, gi⟩ _ (by simp) hinv
        · exact GlyphCache.lookup_insertEntry_self _ _ _
      | doubleHeightTop =>
        have hoth : st.cache.lookup ⟨some f, .doubleHeightBottom, gi⟩ = none :=
          option_none_of_iff (hinv.1 f gi (by have h2 : p.rasterize f true true gi = some ink := hrast; simp [h2])) hlook
        refine ⟨_, _,
          by simp only [drawGlyph, drawGlyphWithFace, hrast, hA, storeGlyphEntry]; exact rfl,
          ?_, ?_, ?_⟩ <;> dsimp only
        · exact cacheExt_insert2_absent _ _ _ _ _ hlook hoth
        · refine cachePaired_of_bothHalves p st.cache _ (some f) gi ?_ ?_ ?_ hinv
          · rw [lookup_insert2_fst _ _ _ _ _ (hTB (some f))]
            simp
          · rw [GlyphCache.lookup_insertEntry_self]
            simp
          · intro k hk
            exact lookup_insert2_untouched _ _ _ _ _ _
              (key_ne_of_component k (some f) _ gi hk)
              (key_ne_of_component k (some f) _ gi hk)
        · exact lookup_insert2_fst _ _ _ _ _ (hTB (some f))
      | doubleHeightBottom =>
        have hoth : st.cache.lookup ⟨some f, .doubleHeightTop, gi⟩ = none :=
          option_none_of_iff (hinv.1 f gi (by have h2 : p.rasterize f true true gi = some ink := hrast; simp [h2])).symm hlook
        refine ⟨_, _,
          by simp only [drawGlyph, drawGlyphWithFace, hrast, hA, storeGlyphEntry]; exact rfl,
          ?_, ?_, ?_⟩ <;> dsimp only
        · exact cacheExt_insert2_absent _ _ _ _ _ hlook hoth
        · refine cachePaired_of_bothHalves p st.cache _ (some f) gi ?_ ?_ ?_ hinv
          · rw [GlyphCache.lookup_insertEntry_self]
            simp
          · rw [lookup_insert2_fst _ _ _ _ _ (hTB (some f)).symm]
            simp
          · intro k hk
            exact lookup_insert2_untouched _ _ _ _ _ _
              (key_ne_of_component k (some f) _ gi hk)
              (key_ne_of_component k (some f) _ gi hk)
        · exact lookup_insert2_fst _ _ _ _ _ (hTB (some f)).symm

theorem processGlyph_spec {σ : Type} (pack : σ → Int × Int → Option (σ × Nat × Nat))
    (resetPacker : σ → σ) (p : RenderingPayload) (rend : LineRendition)
    (face : Option Nat) (y : Nat) (st : AtlasState σ) (bx : Int) (g : GlyphPlacement)
    (hpack : ∀ q r, (pack q r).isSome) (hinv : CachePaired p st.cache) :
    ∃ (st1 : AtlasState σ) (out : List Stamp),
      processGlyph pack resetPacker p rend face y st bx g = .ok (st1, bx + g.advance, out) ∧
      CacheExt st.cache st1.cache ∧
      CachePaired p st1.cache ∧
      ∀ (C : GlyphCache) (q : σ), CacheExt st1.cache C →
        processGlyph pack resetPacker p rend face y ⟨C, q⟩ bx g =
          .ok (⟨C, q⟩, bx + g.advance, out) := by
  cases hlook : st.cache.lookup ⟨face, rend, g.glyphIndex⟩ with
  | some e =>
    refine ⟨st, glyphStamps p.font rend y bx g e, ?_, cacheExt_refl _, hinv, ?_⟩
    · simp only [processGlyph, hlook]
    · intro C q hC
      have hCl : C.lookup ⟨face, rend, g.glyphIndex⟩ = some e := hC _ _ hlook
      simp only [processGlyph, hCl]
  | none =>
    obtain ⟨st1, e, hdraw, hext, hinv1, hlookup⟩ :=
      drawGlyph_spec pack resetPacker p rend face g.glyphIndex st hpack hinv hlook
    refine ⟨st1, glyphStamps p.font rend y bx g e, ?_, hext, hinv1, ?_⟩
    · simp only [processGlyph, hlook, hdraw]
    · intro C q hC
      have hCl : C.lookup ⟨face, rend, g.glyphIndex⟩ = some e := hC _ _ hlookup
      simp only [processGlyph, hCl]

theorem processGlyphs_spec {σ : Type} (pack : σ → Int × Int → Option (σ × Nat × Nat))
    (resetPacker : σ → σ) (p : RenderingPayload) (rend : LineRendition)
    (face : Option Nat) (y : Nat) (L : List GlyphPlacement) :
    ∀ (st : AtlasState σ) (bx : Int),
    (∀ q r, (pack q r).isSome) → CachePaired p st.cache →
    ∃ (st' : AtlasState σ) (bx' : Int) (out : List Stamp),
      processGlyphs pack resetPacker p rend face y L st bx = .ok (st', bx', out) ∧
      CacheExt st.cache st'.cache ∧
      CachePaired p st'.cache ∧
      ∀ (C : GlyphCache) (q : σ), CacheExt st'.cache C →
        processGlyphs pack resetPacker p rend face y L ⟨C, q⟩ bx =
          .ok (⟨C, q⟩, bx', out) := by
  induction L with
  | nil =>
    intro st bx _ hinv
    exact ⟨st, bx, [], rfl, cacheExt_refl _, hinv, fun C q _ => rfl⟩
  | cons g rest ih =>
    intro st bx hpack hinv
    obtain ⟨st1, out1, hstep, hext1, hinv1, hreplay1⟩ :=
      processGlyph_spec pack resetPacker p rend face y st bx g hpack hinv
    obtain ⟨st2, bx2, out2, hrest, hext2, hinv2, hreplay2⟩ :=
      ih st1 (bx + g.advance) hpack hinv1
    refine ⟨st2, bx2, out1 ++ out2, ?_, cacheExt_trans hext1 hext2, hinv2, ?_⟩
    · simp only [processGlyphs, hstep, hrest]
    · intro C q hC
      have hC1 : CacheExt st1.cache C := cacheExt_trans hext2 hC
      simp only [processGlyphs, hreplay1 C q hC1, hreplay2 C q hC]

theorem processMappings_spec {σ : Type} (pack : σ → Int × Int → Option (σ × Nat × Nat))
    (resetPacker : σ → σ) (p : RenderingPayload) (rend : LineRendition) (y : Nat)
    (L : List RowMapping) :
    ∀ (st : AtlasState σ) (bx : Int),
    (∀ q r, (pack q r).isSome) → CachePaired p st.cache →
    ∃ (st' : AtlasState σ) (bx' : Int) (out : List Stamp),
      processMappings pack resetPacker p rend y L st bx = .ok (st', bx', out) ∧
      CacheExt st.cache st'.cache ∧
      CachePaired p st'.cache ∧
      ∀ (C : GlyphCache) (q : σ), CacheExt st'.cache C →
        processMappings pack resetPacker p rend y L ⟨C, q⟩ bx =
          .ok (⟨C, q⟩, bx', out) := by
  induction L with
  | nil =>
    intro st bx _ hinv
    exact ⟨st, bx, [], rfl, cacheExt_refl _, hinv, fun C q _ => rfl⟩
  | cons m rest ih =>
    intro st bx hpack hinv
    obtain ⟨st1, bx1, out1, hstep, hext1, hinv1, hreplay1⟩ :=
      processGlyphs_spec pack resetPacker p rend m.fontFace y m.glyphs st bx hpack hinv
    obtain ⟨st2, bx2, out2, hrest, hext2, hinv2, hreplay2⟩ := ih st1 bx1 hpack hinv1
    refine ⟨st2, bx2, out1 ++ out2, ?_, cacheExt_trans hext1 hext2, hinv2, ?_⟩
    · simp only [processMappings, hstep, hrest]
    · intro C q hC
      have hC1 : CacheExt st1.cache C := cacheExt_trans hext2 hC
      simp only [processMappings, hreplay1 C q hC1, hreplay2 C q hC]

theorem processRows_spec {σ : Type} (pack : σ → Int × Int → Option (σ × Nat × Nat))
    (resetPacker : σ → σ) (p : RenderingPayload) (L : List ShapedRow) :
    ∀ (y : Nat) (st : AtlasState σ),
    (∀ q r, (pack q r).isSome) → CachePaired p st.cache →
    ∃ (st' : AtlasState σ) (out : List Stamp),
      processRows pack resetPacker p L y st = .ok (st', out) ∧
      CacheExt st.cache st'.cache ∧
      CachePaired p st'.cache ∧
      ∀ (C : GlyphCache) (q : σ), CacheExt st'.cache C →
        processRows pack resetPacker p L y ⟨C, q⟩ = .ok (⟨C, q⟩, out) := by
  induction L with
  | nil =>
    intro y st _ hinv
    exact ⟨st, [], rfl, cacheExt_refl _, hinv, fun C q _ => rfl⟩
  | cons row rest ih =>
    intro y st hpack hinv
    obtain ⟨st1, bx1, out1, hstep, hext1, hinv1, hreplay1⟩ :=
      processMappings_spec pack resetPacker p row.lineRendition y row.mappings st 0 hpack hinv
    obtain ⟨st2, out2, hrest, hext2, hinv2, hreplay2⟩ := ih (y + 1) st1 hpack hinv1
    refine ⟨st2, out1 ++ out2, ?_, cacheExt_trans hext1 hext2, hinv2, ?_⟩
    · simp only [processRows, hstep, hrest]
    · intro C q hC
      have hC1 : CacheExt st1.cache C := cacheExt_trans hext2 hC
      simp only [processRows, hreplay1 C q hC1, hreplay2 C q hC]

theorem drawText_spec {σ : Type} (pack : σ → Int × Int → Option (σ × Nat × Nat))
    (resetPacker : σ → σ) (p : RenderingPayload) (flag : Bool) (st : AtlasState σ)
    (hpack : ∀ q r, (pack q r).isSome) (hinv : CachePaired p st.cache) :
    ∃ (st' : AtlasState σ) (out : List Stamp),
      drawText pack resetPacker p flag st = .ok (st', out) ∧
      CachePaired p st'.cache ∧
      ∀ q : σ, drawText pack resetPacker p false ⟨st'.cache, q⟩ =
        .ok (⟨st'.cache, q⟩, out) := by
  have hinv0 : CachePaired p (if flag then atlasResetDuringDraw resetPacker st else st).cache := by
    cases flag with
    | true => exact cachePaired_resetAll p
    | false => exact hinv
  obtain ⟨st', out, hrows, _, hinv', hreplay⟩ :=
    processRows_spec pack resetPacker p p.rows 0
      (if flag then atlasResetDuringDraw resetPacker st else st) hpack hinv0
  refine ⟨st', out, ?_, hinv', ?_⟩
  · simp only [drawText]
    cases flag <;> simpa using hrows
  · intro q
    simp only [drawText, if_false, Bool.false_eq_true]
    exact hreplay st'.cache q (cacheExt_refl _)

/-- C6 amended: resource recreation happens if and only if the corresponding
locally cached generation stamp differs from the externally supplied one
(given the generational discipline that a sub-generation change bumps the
overall generation), and afterwards the local stamps equal the new external
values; calling `render` twice with an unchanged payload issues no resource
recreation on the second call, and — provided the first call triggers no
atlas overflow (every packer allocation succeeds) and the cache satisfies the
pairing invariant of reachable states — the second call produces an
identical cell grid, identical stamps and an identical atlas state.
(Without the no-overflow proviso the grids can differ, see
`c6_overflow_breaks_idempotence`.) -/
theorem c6_recreation_iff_and_idempotence {σ : Type}
    (pack : σ → Int × Int → Option (σ × Nat × Nat)) (resetPacker : σ → σ)
    (s : RenderState σ) (p : RenderingPayload)
    (hgen : (s.fontGeneration ≠ p.fontGeneration ∨ s.miscGeneration ≠ p.miscGeneration ∨
        (s.viewportCellCountX, s.viewportCellCountY) ≠
          (p.viewportCellCountX, p.viewportCellCountY)) →
      s.generation ≠ p.generation)
    (hpack : ∀ q r, (pack q r).isSome)
    (hinv : CachePaired p s.atlas.cache) :
    ∃ (s1 : RenderState σ) (ev1 : RecreateEvents),
      render pack resetPacker s p = .ok (s1, ev1) ∧
      (ev1.handledSettings = true ↔ s.generation ≠ p.generation) ∧
      (ev1.fontDependents = true ↔ s.fontGeneration ≠ p.fontGeneration) ∧
      (ev1.customShader = true ↔ s.miscGeneration ≠ p.miscGeneration) ∧
      (ev1.backgroundBitmap = true ↔
        (s.viewportCellCountX, s.viewportCellCountY) ≠
          (p.viewportCellCountX, p.viewportCellCountY)) ∧
      s1.generation = p.generation ∧
      s1.fontGeneration = p.fontGeneration ∧
      s1.miscGeneration = p.miscGeneration ∧
      (s1.viewportCellCountX, s1.viewportCellCountY) =
        (p.viewportCellCountX, p.viewportCellCountY) ∧
      (ev1.handledSettings = true →
        (s1.targetSizeX, s1.targetSizeY) = (p.targetSizeX, p.targetSizeY)) ∧
      ∃ (s2 : RenderState σ) (ev2 : RecreateEvents),
        render pack resetPacker s1 p = .ok (s2, ev2) ∧
        ev2 = ⟨false, false, false, false⟩ ∧
        s2.stamps = s1.stamps ∧
        finalCells p s2.stamps = finalCells p s1.stamps ∧
        s2.atlas = s1.atlas := by
  by_cases hg : s.generation = p.generation
  · have hif : (if s.generation ≠ p.generation then handleSettingsUpdate s p
        else (s, ⟨false, false, false, false⟩)) = (s, ⟨false, false, false, false⟩) :=
      if_neg (not_not_intro hg)
    obtain ⟨st', out, hdt, hinv', hreplay⟩ :=
      drawText_spec pack resetPacker p s.fontChangedResetGlyphAtlas s.atlas hpack hinv
    refine ⟨_, _, by simp only [render, hif, hdt]; exact rfl, ?_, ?_, ?_, ?_, ?_, ?_, ?_, ?_,
      ?_, ?_⟩ <;> dsimp only
    · simp [hg]
    · simp only [Bool.false_eq_true, false_iff, not_not]
      by_contra hne
      exact hgen (Or.inl hne) hg
    · simp only [Bool.false_eq_true, false_iff, not_not]
      by_contra hne
      exact hgen (Or.inr (Or.inl hne)) hg
    · simp only [Bool.false_eq_true, false_iff, not_not]
      by_contra hne
      exact hgen (Or.inr (Or.inr hne)) hg
    · exact hg
    · by_contra hne
      exact hgen (Or.inl hne) hg
    · by_contra hne
      exact hgen (Or.inr (Or.inl hne)) hg
    · by_contra hne
      exact hgen (Or.inr (Or.inr hne)) hg
    · simp
    · have hdt2 : drawText pack resetPacker p false st' = .ok (st', out) := by
        have := hreplay st'.packer
        exact this
      refine ⟨_, _, by simp only [render, hg,
        if_neg (not_not_intro (rfl : p.generation = p.generation)), hdt2]; exact rfl,
        ?_, ?_, ?_, ?_⟩
      · rfl
      · rfl
      · rfl
      · rfl
  · have hif : (if s.generation ≠ p.generation then handleSettingsUpdate s p
        else (s, ⟨false, false, false, false⟩)) = handleSettingsUpdate s p := if_pos hg
    obtain ⟨st', out, hdt, hinv', hreplay⟩ :=
      drawText_spec pack resetPacker p
        (s.fontChangedResetGlyphAtlas || decide (s.fontGeneration ≠ p.fontGeneration))
        s.atlas hpack hinv
    refine ⟨_, _,
      by simp only [render, hif]; simp only [handleSettingsUpdate, hdt]; exact rfl,
      ?_, ?_, ?_, ?_, ?_, ?_, ?_, ?_, ?_, ?_⟩ <;> dsimp only
    · simp [hg]
    · simp
    · simp
    · simp only [decide_eq_true_eq]
    · intro _
      rfl
    · have hdt2 : drawText pack resetPacker p false st' = .ok (st', out) := by
        have := hreplay st'.packer
        exact this
      refine ⟨_, _, by simp only [render,
        if_neg (not_not_intro (rfl : p.generation = p.generation)), hdt2]; exact rfl,
        ?_, ?_, ?_, ?_⟩
      · rfl
      · rfl
      · rfl
      · rfl

/-- Witness for `c6_recreation_iff_and_idempotence`: in the single-glyph
scenario (an always-succeeding packer, generational discipline satisfied,
empty initial cache) the second frame reproduces the first frame's stamps. -/
theorem c6_recreation_iff_and_idempotence_witness :
    renderStamps (renderTwice c7pack (fun q => q) c7state c7payload) =
      renderStamps (render c7pack (fun q => q) c7state c7payload) := by
  obtain ⟨s1, ev1, hren, _, _, _, _, _, _, _, _, _, s2, ev2, hren2, hev2, hstamps, _, _⟩ :=
    c6_recreation_iff_and_idempotence c7pack (fun q => q) c7state c7payload
      (fun _ => by decide) (fun q r => rfl) (cachePaired_resetAll c7payload)
  simp [renderTwice, renderStamps, hren, hren2, hstamps]

end BackendD3D
